import Mathlib

/-!
Verification of the table-generation core of `toy_api`
(`src/toy_api/table_generator.py`).

The Python module is embedded shallowly:

* Randomness (`random.randint`, `random.choice`, `random.sample`,
  `random.choices`) is modelled by an abstract stream of natural numbers
  (`RS := Nat → Nat`): each primitive consumes one stream element and maps
  it into its range (e.g. `randint lo hi` returns `lo + r % (hi + 1 - lo)`),
  so quantifying over all streams quantifies over all possible random
  outcomes.
* Python exceptions (`ValueError`, `IndexError`) are modelled by `Except`.
* To settle the temporal claim about the order of shared-data generation and
  shared-reference resolution, each computation also produces a trace of
  `Event`s marking when a shared reference is resolved, when the shared
  section is complete, and when generation of each table begins.

All definitions follow the Python source; comments name the function and
line they embed.
-/

set_option autoImplicit false
set_option linter.unusedVariables false

universe u v

/-- Python exceptions that can escape the generation core. -/
inductive PyErr where
  /-- `ValueError` (undefined shared column, malformed `int(...)`, bad
  `random.sample` size, empty `random.randint` range). -/
  | valueError
  /-- `IndexError` (`random.choice` on an empty sequence). -/
  | indexError
deriving DecidableEq, Repr

/-- Trace events used to state temporal properties of one document run. -/
inductive Event where
  /-- `_generate_cell_value` entered its shared-reference branch for `name`. -/
  | resolveSharedRef (name : String)
  /-- `create_table` finished generating the whole `shared` section. -/
  | sharedPhaseEnd
  /-- `create_table` began generating the table stored under key `name`. -/
  | tableStart (name : String)
deriving DecidableEq, Repr

/-- The abstract stream of random natural numbers. -/
def RS : Type := Nat → Nat

/-- First element of the stream. -/
def RS.head (s : RS) : Nat := s 0

/-- Stream with the first element consumed. -/
def RS.tail (s : RS) : RS := fun n => s (n + 1)

/-- The all-zero stream, used for concrete witnesses. -/
def constStream : RS := fun _ => 0

/-- A generation computation: consumes random numbers, may raise a Python
exception, and emits a trace of events. -/
def Gen (α : Type u) : Type u := RS → Except PyErr (α × RS × List Event)

/-- Monadic unit for `Gen`. -/
def genPure {α : Type u} (a : α) : Gen α := fun s => .ok (a, s, [])

/-- Monadic bind for `Gen`; traces concatenate in execution order. -/
def genBind {α : Type u} {β : Type v} (g : Gen α) (f : α → Gen β) : Gen β :=
  fun s =>
    match g s with
    | .error e => .error e
    | .ok (a, s', t₁) =>
      match f a s' with
      | .error e => .error e
      | .ok (b, s'', t₂) => .ok (b, s'', t₁ ++ t₂)

instance : Monad Gen where
  pure := genPure
  bind := genBind

/-- Raise a Python exception. -/
def genErr {α : Type u} (e : PyErr) : Gen α := fun _ => .error e

/-- Consume one raw random number from the stream. -/
def nextNat : Gen Nat := fun s => .ok (s.head, s.tail, [])

/-- Record a trace event. -/
def emit (e : Event) : Gen Unit := fun s => .ok ((), s, [e])

/-- `random.randint(lo, hi)`: uniform on `[lo, hi]`; raises `ValueError` on an
empty range, as Python does. -/
def randint (lo hi : Nat) : Gen Nat :=
  if hi < lo then genErr .valueError
  else genBind nextNat fun r => genPure (lo + r % (hi + 1 - lo))

/-- `random.choice(l)`: a uniformly chosen element; `IndexError` when `l` is
empty, as Python raises. -/
def choice {α : Type} (l : List α) : Gen α := fun s =>
  if h : l.length = 0 then .error .indexError
  else .ok (l.get ⟨s.head % l.length, Nat.mod_lt _ (Nat.pos_of_ne_zero h)⟩, s.tail, [])

/-- Body of `random.sample`: repeatedly pick a remaining element (by a
stream-chosen position) and remove it, `k` times. -/
def sampleGo {α : Type} : List α → Nat → RS → List α × RS
  | _, 0, s => ([], s)
  | l, k + 1, s =>
    if h : l.length = 0 then ([], s)
    else
      let i : Fin l.length := ⟨s.head % l.length, Nat.mod_lt _ (Nat.pos_of_ne_zero h)⟩
      let r := sampleGo (l.eraseIdx i) k s.tail
      (l.get i :: r.1, r.2)

/-- `random.sample(l, k)`: `k` elements drawn without replacement (by
position); raises `ValueError` when `k` exceeds the population size. -/
def sample {α : Type} (l : List α) (k : Nat) : Gen (List α) := fun s =>
  if l.length < k then .error .valueError
  else
    let r := sampleGo l k s
    .ok (r.1, r.2, [])

-- Equality of run results is decidable (used by concrete witnesses).
deriving instance DecidableEq for Except

/-- Result of a run, keeping only the produced value. -/
def evalG {α : Type u} (g : Gen α) (s : RS) : Except PyErr α :=
  match g s with
  | .error e => .error e
  | .ok (a, _, _) => .ok a

/-- Result of a run, keeping only the event trace. -/
def traceOf {α : Type u} (g : Gen α) (s : RS) : Except PyErr (List Event) :=
  match g s with
  | .error e => .error e
  | .ok (_, _, t) => .ok t

/-- Scalar values that can appear inside generated lists (list cells produced
by the Python code only ever hold strings or ints). -/
inductive Prim where
  | int (n : Nat)
  | str (s : String)
deriving DecidableEq, Repr

/-- A generated cell value (`Any` in the Python signature, restricted to the
shapes the generator actually produces). `float` keeps the raw stream draw:
no claim inspects float arithmetic. -/
inductive Value where
  | int (n : Nat)
  | str (s : String)
  | float (raw : Nat)
  | bool (b : Bool)
  | vlist (vs : List Prim)
  | none
deriving DecidableEq, Repr

/-- Promote a scalar list element to a cell value. -/
def Prim.toValue : Prim → Value
  | .int n => .int n
  | .str s => .str s

/-! ## Constant pools (`toy_api/constants.py`) -/

/-- `FIRST_NAMES` from `constants.py`. -/
def FIRST_NAMES : List String :=
  ["Alice", "Bob", "Charlie", "Diana", "Edward", "Fiona", "George", "Helen",
   "Ian", "Julia", "Kevin", "Luna", "Mark", "Nina", "Oscar", "Paula"]

/-- The surname written with U+0027 after the O in `constants.py`; built from
the code point to keep the source file free of quote characters in strings. -/
def oConnor : String := "O" ++ String.mk [Char.ofNat 39] ++ "Connor"

/-- `LAST_NAMES` from `constants.py`. -/
def LAST_NAMES : List String :=
  ["Anderson", "Brown", "Chen", "Davis", "Evans", "Foster", "Garcia", "Harris",
   "Jackson", "Kim", "Lopez", "Miller", "Nelson", oConnor, "Parker", "Quinn"]

/-- `POST_TITLES` from `constants.py`. -/
def POST_TITLES : List String :=
  ["Introduction to APIs", "Building Scalable Systems", "Database Design Patterns",
   "Security Best Practices", "Testing Strategies", "DevOps Fundamentals",
   "Code Review Guidelines", "Performance Optimization", "Documentation Standards"]

/-- `LOCATIONS` from `constants.py`. -/
def LOCATIONS : List String :=
  ["San Francisco", "New York", "London", "Tokyo", "Berlin", "Toronto", "Sydney",
   "Amsterdam", "Barcelona", "Singapore", "Austin", "Seattle", "Portland"]

/-- `PERMISSIONS` from `constants.py`. -/
def PERMISSIONS : List String :=
  ["read", "write", "delete", "admin", "create", "update", "execute", "manage"]

/-- `THEMES` from `constants.py`. -/
def THEMES : List String := ["light", "dark", "auto"]

/-- `LANGUAGES` from `constants.py`. -/
def LANGUAGES : List String := ["en", "es", "fr", "de", "it", "pt", "ja", "ko", "zh"]

/-- `POST_TAGS` from `constants.py`. -/
def POST_TAGS : List String :=
  ["tech", "api", "tutorial", "guide", "tips", "best-practices", "development",
   "programming", "web", "mobile", "database", "security", "performance"]

/-- `ADMIN_ACTIVITIES` from `constants.py`. -/
def ADMIN_ACTIVITIES : List String :=
  ["User login", "Data backup", "System update", "Security scan",
   "Cache refresh", "Database maintenance", "Log rotation", "Config update"]

/-- `table_generator.py` imports `JOBS` from `constants.py`, but `constants.py`
never defines it (a latent `ImportError` in the repository). No claim
exercises the `JOB`/`JOBS` pools; they are modelled as an empty pool. -/
def JOBS : List String := []

/-- `CONSTANT_MAP` from `table_generator.py` lines 41-63, in source order. -/
def CONSTANT_MAP : List (String × List String) :=
  [("FIRST_NAMES", FIRST_NAMES), ("LAST_NAMES", LAST_NAMES),
   ("POST_TITLES", POST_TITLES), ("LOCATIONS", LOCATIONS),
   ("PERMISSIONS", PERMISSIONS), ("THEMES", THEMES),
   ("LANGUAGES", LANGUAGES), ("POST_TAGS", POST_TAGS),
   ("ADMIN_ACTIVITIES", ADMIN_ACTIVITIES), ("JOBS", JOBS),
   ("FIRST_NAME", FIRST_NAMES), ("LAST_NAME", LAST_NAMES),
   ("POST_TITLE", POST_TITLES), ("LOCATION", LOCATIONS),
   ("PERMISSION", PERMISSIONS), ("THEME", THEMES),
   ("LANGUAGE", LANGUAGES), ("POST_TAG", POST_TAGS),
   ("ADMIN_ACTIVITY", ADMIN_ACTIVITIES), ("JOB", JOBS)]

/-- `string.ascii_letters + string.digits`, the alphabet of
`_generate_random_string`. -/
def ALPHANUM : List Char :=
  "abcdefghijklmnopqrstuvwxyzABCDEFGHIJKLMNOPQRSTUVWXYZ0123456789".data

/-! ## String-level helpers

Python string tests are modelled over `String.data` char lists. -/

/-- The character list of a string. -/
def chars (s : String) : List Char := s.data

/-- Rebuild a string from a character list. -/
def ofChars (l : List Char) : String := String.mk l

/-- Config mapping (`config` top-level key): name to scalar row count. -/
abbrev Config := List (String × Nat)

/-- Shared data: column name to generated values, insertion-ordered. -/
abbrev SharedData := List (String × List Value)

/-- One generated row: column name to value, in declaration order. -/
abbrev Row := List (String × Value)

/-- Python dict assignment `m[k] = v`: replaces in place when the key exists
(keeping its position), otherwise appends. -/
def dictInsert {α : Type} (m : List (String × α)) (k : String) (v : α) : List (String × α) :=
  if m.any (fun p => p.1 == k) then
    m.map (fun p => if p.1 == k then (k, v) else p)
  else m ++ [(k, v)]

/-- `value_spec.startswith("[[") and value_spec.endswith("]]")`
(`table_generator.py` line 270). -/
def sharedShape (s : String) : Bool :=
  (chars "[[").isPrefixOf (chars s) && (chars "]]").isSuffixOf (chars s)

/-- `value_spec[2:-2]` (line 271): the shared column name inside `[[...]]`. -/
def sharedName (s : String) : String :=
  ofChars (((chars s).drop 2).take ((chars s).length - 4))

/-- Numeric value of a digit run. -/
def digitsVal (l : List Char) : Nat :=
  l.foldl (fun n c => n * 10 + (c.toNat - 48)) 0

/-- `str.strip()` restricted to spaces (the only whitespace the mini-grammar
meets): drop leading and trailing space characters. -/
def pyStrip (l : List Char) : List Char :=
  ((l.dropWhile (· = ' ')).reverse.dropWhile (· = ' ')).reverse

/-- Python `int(s)` on the strings this module feeds it: tolerates surrounding
spaces, accepts a nonempty digit run, raises `ValueError` otherwise (signs and
underscore separators cannot appear in the mini-grammar fragments parsed
here). -/
def pyInt (l : List Char) : Gen Nat :=
  let t := pyStrip l
  if t ≠ [] ∧ t.all Char.isDigit then genPure (digitsVal t) else genErr .valueError

/-! ## Column-spec parsing (`_parse_column_spec`, lines 410-436)

The two regexes are deterministic on their inputs: the greedy character
classes exclude the character that must follow them, so no backtracking can
change a match. -/

/-- `re.match` of `([^\[]+)\[\[([^\]]+)\]\]` (line 421): leading nonempty run
of non-bracket characters, then a `[[VAR]]` annotation; trailing characters
are ignored, as `re.match` does not anchor the end. -/
def matchDoubleBracket (cs : List Char) : Option (List Char × List Char) :=
  let name := cs.takeWhile (· ≠ '[')
  match name with
  | [] => Option.none
  | _ :: _ =>
    match cs.drop name.length with
    | '[' :: '[' :: r2 =>
      let var := r2.takeWhile (· ≠ ']')
      match var with
      | [] => Option.none
      | _ :: _ =>
        match r2.drop var.length with
        | ']' :: ']' :: _ => some (name, var)
        | _ => Option.none
    | _ => Option.none

/-- `re.match` of `([^\[]+)\[(\d+)\]` (line 429): leading nonempty run of
non-bracket characters, then a literal `[int]` annotation. -/
def matchIntBracket (cs : List Char) : Option (List Char × Nat) :=
  let name := cs.takeWhile (· ≠ '[')
  match name with
  | [] => Option.none
  | _ :: _ =>
    match cs.drop name.length with
    | '[' :: r2 =>
      let ds := r2.takeWhile Char.isDigit
      match ds with
      | [] => Option.none
      | _ :: _ =>
        match r2.drop ds.length with
        | ']' :: _ => some (name, digitsVal ds)
        | _ => Option.none
    | _ => Option.none

/-- `_parse_column_spec` (lines 410-436): extract `(name, row count?)` from a
column- or table-spec key. A `[[VAR]]` annotation looks `VAR` up in `config`
and silently yields no count when absent. -/
def _parse_column_spec (col_spec : String) (config_values : Config) : String × Option Nat :=
  match matchDoubleBracket (chars col_spec) with
  | some (name, var) => (ofChars name, config_values.lookup (ofChars var))
  | Option.none =>
    match matchIntBracket (chars col_spec) with
    | some (name, n) => (ofChars name, some n)
    | Option.none => (col_spec, Option.none)

/-! ## `UNIQUE` and `CHOOSE` parsing -/

/-- `re.match` of `UNIQUE\[([^\]]+)\]` (line 347): the type between
`UNIQUE[` and the first `]`, nonempty; unmatched input reports `none`. -/
def parseUnique (cs : List Char) : Option (List Char) :=
  if (chars "UNIQUE[").isPrefixOf cs then
    let rest := cs.drop 7
    let ty := rest.takeWhile (· ≠ ']')
    match ty with
    | [] => Option.none
    | _ :: _ =>
      match rest.drop ty.length with
      | ']' :: _ => some ty
      | _ => Option.none
  else Option.none

/-- `f"{row_idx:04d}"` (line 356): decimal digits zero-padded to width 4. -/
def pad4 (n : Nat) : String :=
  let d := Nat.toDigits 10 n
  ofChars (List.replicate (4 - d.length) '0' ++ d)

/-- `_generate_unique_value` (lines 336-358). A failed regex match returns the
bare row index; otherwise the value is a deterministic function of the row
index and the extracted type. -/
def _generate_unique_value (value_spec : String) (row_idx : Nat) : Gen Value :=
  match parseUnique (chars value_spec) with
  | Option.none => genPure (.int row_idx)
  | some ty =>
    if ty = chars "int" then genPure (.int (row_idx + 1000))
    else if ty = chars "str" then genPure (.str ("unique_" ++ pad4 row_idx))
    else genPure (.str (ofChars ty ++ "_" ++ ofChars (Nat.toDigits 10 row_idx)))

/-- `re.match` of `CHOOSE\[\[([^\]]+)\]\](?:\[\[([^\]]+)\]\])?` (line 372):
the items between `CHOOSE[[` and `]]`, and an optional `[[count]]` suffix.
When the optional group fails to match, the whole match still succeeds with
no count. -/
def parseChoose (cs : List Char) : Option (List Char × Option (List Char)) :=
  if (chars "CHOOSE[[").isPrefixOf cs then
    let rest := cs.drop 8
    let items := rest.takeWhile (· ≠ ']')
    match items with
    | [] => Option.none
    | _ :: _ =>
      match rest.drop items.length with
      | ']' :: ']' :: r3 =>
        some (items,
          if (chars "[[").isPrefixOf r3 then
            let c := (r3.drop 2).takeWhile (· ≠ ']')
            match c with
            | [] => Option.none
            | _ :: _ =>
              match (r3.drop 2).drop c.length with
              | ']' :: ']' :: _ => some c
              | _ => Option.none
          else Option.none)
      | _ => Option.none
  else Option.none

/-- `'-' in items_spec and items_spec.replace('-','').replace(' ','').isdigit()`
(line 382): chooses between range syntax and list syntax. -/
def isRangeSpec (cs : List Char) : Bool :=
  cs.contains '-' &&
    (let t := cs.filter (fun c => c ≠ '-' ∧ c ≠ ' ')
     !t.isEmpty && t.all Char.isDigit)

/-- Items of a `CHOOSE` spec (lines 382-390): a numeric inclusive range
`start-end` (via `range(start, end + 1)`) or a comma-split, stripped literal
list. `split` always yields at least one part. -/
def chooseItems (items_spec : List Char) : Gen (List Prim) :=
  if isRangeSpec items_spec then
    let parts := items_spec.splitOn '-'
    genBind (pyInt (parts.getD 0 [])) fun start =>
      genBind (pyInt (parts.getD 1 [])) fun stop =>
        genPure ((List.range' start (stop + 1 - start)).map Prim.int)
  else
    genPure ((items_spec.splitOn ',').map (fun p => Prim.str (ofChars (pyStrip p))))

/-- `_generate_choose_value` (lines 361-407). A failed regex match returns
Python `None`; a bare or `[[1]]` count returns a single item; `[[n]]` draws a
random size; any other count goes through `int(...)`; list sizes are clamped
to the item count and sampled without replacement. -/
def _generate_choose_value (value_spec : String) : Gen Value :=
  match parseChoose (chars value_spec) with
  | Option.none => genPure .none
  | some (items_spec, count_spec) =>
    genBind (chooseItems items_spec) fun items =>
      match count_spec with
      | Option.none => genBind (choice items) fun x => genPure x.toValue
      | some c =>
        if c = chars "n" then
          genBind (randint 1 items.length) fun count =>
            genBind (sample items (min count items.length)) fun xs =>
              genPure (.vlist xs)
        else if c = chars "1" then
          genBind (choice items) fun x => genPure x.toValue
        else
          genBind (pyInt c) fun count =>
            genBind (sample items (min count items.length)) fun xs =>
              genPure (.vlist xs)

/-! ## Cell values (`_generate_cell_value`, lines 253-333) -/

/-- One `f"{random.choice(FIRST_NAMES)} {random.choice(LAST_NAMES)}"` draw
(line 284): first-name draw, then last-name draw, joined by a space. -/
def genFullName : Gen Value :=
  genBind (choice FIRST_NAMES) fun f =>
    genBind (choice LAST_NAMES) fun l =>
      genPure (.str (f ++ " " ++ l))

/-- The list comprehension of the `NAMES` branch (line 288): `count`
independent full names. -/
def genNames : Nat → Gen (List Prim)
  | 0 => genPure []
  | n + 1 =>
    genBind (choice FIRST_NAMES) fun f =>
      genBind (choice LAST_NAMES) fun l =>
        genBind (genNames n) fun rest =>
          genPure (Prim.str (f ++ " " ++ l) :: rest)

/-- `re.match` of `([A-Z_]+)\[([n0-9]+)\]` (line 308): an upper-case/underscore
pool name followed by a bracketed run over `n` and digits. -/
def poolSel (cs : List Char) : Option (List Char × List Char) :=
  let name := cs.takeWhile (fun c => ('A' ≤ c ∧ c ≤ 'Z') ∨ c = '_')
  match name with
  | [] => Option.none
  | _ :: _ =>
    match cs.drop name.length with
    | '[' :: r2 =>
      let cnt := r2.takeWhile (fun c => c = 'n' ∨ c.isDigit)
      match cnt with
      | [] => Option.none
      | _ :: _ =>
        match r2.drop cnt.length with
        | ']' :: _ => some (name, cnt)
        | _ => Option.none
    | _ => Option.none

/-- `_generate_random_string` (lines 439-449): ten draws with replacement from
the alphanumeric alphabet (`random.choices(..., k=10)`). -/
def genRandChars : Nat → Gen (List Char)
  | 0 => genPure []
  | n + 1 =>
    genBind (choice ALPHANUM) fun c =>
      genBind (genRandChars n) fun rest =>
        genPure (c :: rest)

/-- `_generate_random_string()` with its default length 10. -/
def _generate_random_string : Gen Value :=
  genBind (genRandChars 10) fun cs => genPure (.str (ofChars cs))

/-- The shared tail of `_generate_cell_value` (lines 322-333): primitive type
tokens, then the verbatim-string fallback. -/
def genPrimOrLiteral (value_spec : String) : Gen Value :=
  if value_spec = "str" then _generate_random_string
  else if value_spec = "int" then genBind (randint 0 1000) fun n => genPure (.int n)
  else if value_spec = "float" then genBind nextNat fun r => genPure (.float r)
  else if value_spec = "bool" then genBind (choice [true, false]) fun b => genPure (.bool b)
  else genPure (.str value_spec)

/-- The constant-pool branches of `_generate_cell_value` (lines 298-320):
direct pool-name lookup (plural names sample a random-size subset, singular
names pick one element), then the `POOL[n]`/`POOL[int]` selection regex, and
otherwise the primitive/fallback tail. -/
def genPoolValue (value_spec : String) : Gen Value :=
  match CONSTANT_MAP.lookup value_spec with
  | some pool =>
    if (chars "S").isSuffixOf (chars value_spec) then
      genBind (randint 1 pool.length) fun count =>
        genBind (sample pool count) fun xs =>
          genPure (.vlist (xs.map Prim.str))
    else
      genBind (choice pool) fun x => genPure (.str x)
  | Option.none =>
    match poolSel (chars value_spec) with
    | some (cname, cnt) =>
      match CONSTANT_MAP.lookup (ofChars cname) with
      | some pool =>
        genBind
          (if cnt = chars "n" then randint 1 pool.length else pyInt cnt)
          fun count =>
            genBind (sample pool (min count pool.length)) fun xs =>
              genPure (.vlist (xs.map Prim.str))
      | Option.none => genPrimOrLiteral value_spec
    | Option.none => genPrimOrLiteral value_spec

/-- `_generate_cell_value` (lines 253-333): dispatch over the value-spec
string, in source order: shared reference, `NAME`, `NAMES`, `UNIQUE[`,
`CHOOSE[`, constant pools, primitives, verbatim fallback. The shared branch
emits a `resolveSharedRef` trace event when entered. -/
def _generate_cell_value (value_spec : String) (row_idx : Nat)
    (config_values : Config) (shared_data : SharedData) : Gen Value :=
  if sharedShape value_spec then
    genBind (emit (.resolveSharedRef (sharedName value_spec))) fun _ =>
      match shared_data.lookup (sharedName value_spec) with
      | some col =>
        if h : row_idx < col.length then genPure (col.get ⟨row_idx, h⟩)
        else choice col
      | Option.none => genErr .valueError
  else if value_spec = "NAME" then genFullName
  else if value_spec = "NAMES" then
    genBind (randint 1 5) fun count =>
      genBind (genNames count) fun names => genPure (.vlist names)
  else if (chars "UNIQUE[").isPrefixOf (chars value_spec) then
    _generate_unique_value value_spec row_idx
  else if (chars "CHOOSE[").isPrefixOf (chars value_spec) then
    _generate_choose_value value_spec
  else genPoolValue value_spec

/-! ## Columns, tables and documents (lines 157-250 and 69-135) -/

/-- The cell loop shared by `_generate_column` and `_generate_table`:
generate `count` cells for row indices `idx, idx+1, ...`. -/
def genCellsFrom (value_spec : String) (config_values : Config)
    (shared_data : SharedData) : Nat → Nat → Gen (List Value)
  | _, 0 => genPure []
  | idx, n + 1 =>
    genBind (_generate_cell_value value_spec idx config_values shared_data) fun v =>
      genBind (genCellsFrom value_spec config_values shared_data (idx + 1) n) fun rest =>
        genPure (v :: rest)

/-- `_generate_column` (lines 226-250): default the row count to
`random.randint(10, 50)` when absent, then generate one cell per row index. -/
def _generate_column (value_spec : String) (row_count : Option Nat)
    (config_values : Config) (shared_data : SharedData) : Gen (List Value) :=
  genBind
    (match row_count with
     | some n => genPure n
     | Option.none => randint 10 50)
    fun rc => genCellsFrom value_spec config_values shared_data 0 rc

/-- The loop of `_generate_shared` (lines 167-178): generate each shared
column in order, each one seeing the columns generated so far. -/
def sharedGo (config_values : Config) :
    List (String × String) → SharedData → Gen SharedData
  | [], acc => genPure acc
  | (col_spec, value_spec) :: rest, acc =>
    genBind
      (_generate_column value_spec (_parse_column_spec col_spec config_values).2
        config_values acc)
      fun vals =>
        sharedGo config_values rest
          (dictInsert acc (_parse_column_spec col_spec config_values).1 vals)

/-- `_generate_shared` (lines 157-178). -/
def _generate_shared (shared_def : List (String × String)) (config_values : Config) :
    Gen SharedData :=
  sharedGo config_values shared_def []

/-- The row-count inference loop of `_generate_table` (lines 203-208): the
first column value-spec of `[[...]]` shape whose inner name is a defined
shared column fixes the count as that column's length; other columns are
skipped (the loop `break`s only after a successful lookup). -/
def findSharedLen (columns : List (String × String)) (shared_data : SharedData) :
    Option Nat :=
  match columns with
  | [] => Option.none
  | (_, v) :: rest =>
    if sharedShape v then
      match shared_data.lookup (sharedName v) with
      | some col => some col.length
      | Option.none => findSharedLen rest shared_data
    else findSharedLen rest shared_data

/-- The row-count phase of `_generate_table` (lines 197-212): explicit or
config-resolved count from the table-spec key, else shared-reference
inference, else `random.randint(10, 50)`. -/
def tableRowCount (table_spec : String) (columns : List (String × String))
    (shared_data : SharedData) (config_values : Config) : Gen Nat :=
  match (_parse_column_spec table_spec config_values).2 with
  | some n => genPure n
  | Option.none =>
    match findSharedLen columns shared_data with
    | some n => genPure n
    | Option.none => randint 10 50

/-- One row of a table (lines 217-221): resolve every column in declaration
order. -/
def genRowCells (row_idx : Nat) (config_values : Config) (shared_data : SharedData) :
    List (String × String) → Gen Row
  | [] => genPure []
  | (col_name, value_spec) :: rest =>
    genBind (_generate_cell_value value_spec row_idx config_values shared_data) fun v =>
      genBind (genRowCells row_idx config_values shared_data rest) fun r =>
        genPure ((col_name, v) :: r)

/-- The row loop of `_generate_table` (lines 215-221). -/
def genRowsFrom (columns : List (String × String)) (config_values : Config)
    (shared_data : SharedData) : Nat → Nat → Gen (List Row)
  | _, 0 => genPure []
  | idx, n + 1 =>
    genBind (genRowCells idx config_values shared_data columns) fun row =>
      genBind (genRowsFrom columns config_values shared_data (idx + 1) n) fun rest =>
        genPure (row :: rest)

/-- `_generate_table` (lines 181-223): fix the row count, then materialize
exactly that many rows. -/
def _generate_table (table_spec : String) (columns : List (String × String))
    (shared_data : SharedData) (config_values : Config) : Gen (List Row) :=
  genBind (tableRowCount table_spec columns shared_data config_values) fun rc =>
    genRowsFrom columns config_values shared_data 0 rc

/-- A parsed configuration document (the `config`/`shared`/`tables` top-level
keys of `create_table`, lines 97-100); mapping order is preserved. -/
structure Document where
  config : Config
  shared : List (String × String)
  tables : List (String × List (String × String))

/-- Result of `create_table` (lines 115-121): the bare row list when the
document defines exactly one table, else the name-keyed mapping. -/
inductive GenResult where
  | single (rows : List Row)
  | multi (tables : List (String × List Row))
deriving DecidableEq, Repr

/-- The table loop of `create_table` (lines 106-109): tables are generated in
document order and stored under their raw spec key; a `tableStart` event
marks the beginning of each table's generation. -/
def tablesGo (config_values : Config) (shared_data : SharedData) :
    List (String × List (String × String)) → List (String × List Row) →
      Gen (List (String × List Row))
  | [], acc => genPure acc
  | (table_name, columns) :: rest, acc =>
    genBind (emit (.tableStart table_name)) fun _ =>
      genBind (_generate_table table_name columns shared_data config_values) fun t =>
        tablesGo config_values shared_data rest (dictInsert acc table_name t)

/-- `create_table` (lines 69-135) with an in-memory dictionary document and no
destination: generate the shared section, then every table; return the single
table's rows when exactly one table is defined. The `sharedPhaseEnd` event
marks the completion of shared generation. -/
def create_table (doc : Document) : Gen GenResult :=
  genBind (_generate_shared doc.shared doc.config) fun shared_data =>
    genBind (emit .sharedPhaseEnd) fun _ =>
      genBind (tablesGo doc.config shared_data doc.tables []) fun ts =>
        match ts with
        | [(_, t)] => genPure (.single t)
        | _ => genPure (.multi ts)

/-! ## CSV writer (`_write_csv`, lines 532-546)

File output is modelled as the sequence of file operations performed. -/

/-- One observable file operation of the CSV writer. -/
inductive FileAction where
  /-- `open(file_path, 'w')`. -/
  | openWrite
  /-- `writer.writeheader()` against the field names of the first row. -/
  | writeHeader (fields : List String)
  /-- One row written by `writer.writerows(data)`. -/
  | writeRow (r : Row)
deriving DecidableEq, Repr

/-- `_write_csv` (lines 532-546): with no rows it returns before opening the
destination (no file action at all, no exception); otherwise it opens the
file, writes the header taken from the first row's keys, then every row. -/
def _write_csv (data : List Row) : List FileAction :=
  match data with
  | [] => []
  | first :: _ =>
    .openWrite :: .writeHeader (first.map Prod.fst) :: data.map .writeRow

/-- Does the spec match the pool-selection regex with a pool name that is
defined in `CONSTANT_MAP`? (Only then does the code enter the branch that
calls `int(...)` on the bracket content.) -/
def poolSelHit (value_spec : String) : Bool :=
  match poolSel (chars value_spec) with
  | some (cname, _) => (CONSTANT_MAP.lookup (ofChars cname)).isSome
  | Option.none => false

/-- Is an event a shared-reference resolution? -/
def isResolve : Event → Bool
  | .resolveSharedRef _ => true
  | _ => false

/-- A computation whose successful runs emit only shared-reference resolution
events (no phase markers, no table starts). -/
def EmitsOnlyResolve {α : Type u} (g : Gen α) : Prop :=
  ∀ (s : RS) (r : α) (s' : RS) (t : List Event),
    g s = .ok (r, s', t) → ∀ e ∈ t, isResolve e = true

/-- A value that is a non-empty string of exactly two space-separated
tokens. -/
def twoTokenName (v : Value) : Prop :=
  ∃ a b : List Char, a ≠ [] ∧ b ≠ [] ∧ ' ' ∉ a ∧ ' ' ∉ b ∧
    ∃ s : String, v = .str s ∧ chars s = a ++ ' ' :: b

/-- The shared data generated for the C1 document. -/
def c1SharedData : SharedData :=
  [("id", [.int 1000, .int 1001, .int 1002, .int 1003, .int 1004])]

/-- The column definitions of the C1 `users` table, in declaration order. -/
def c1Columns : List (String × String) := [("id", "[[id]]"), ("name", "NAME")]


/-! ## Run-characterization lemmas -/

theorem genPure_run {α : Type u} (a : α) (s : RS) : genPure a s = .ok (a, s, []) := rfl

/-- Successful runs of a bind decompose into successful runs of both parts,
with traces concatenated. -/
theorem genBind_ok {α : Type u} {β : Type v} {g : Gen α} {f : α → Gen β} {s : RS}
    {b : β} {s₂ : RS} {t : List Event} :
    genBind g f s = .ok (b, s₂, t) ↔
      ∃ a s₁ t₁ t₂, g s = .ok (a, s₁, t₁) ∧ f a s₁ = .ok (b, s₂, t₂) ∧ t = t₁ ++ t₂ := by
  constructor
  · intro h
    unfold genBind at h
    split at h
    · cases h
    · rename_i a s₁ t₁ hg
      split at h
      · cases h
      · rename_i b' s₂' t₂ hf
        simp only [Except.ok.injEq, Prod.mk.injEq] at h
        obtain ⟨rfl, rfl, rfl⟩ := h
        exact ⟨a, s₁, t₁, t₂, hg, hf, rfl⟩
  · rintro ⟨a, s₁, t₁, t₂, ha, hb, rfl⟩
    unfold genBind
    simp [ha, hb]

/-- A bind fails exactly when its first part fails, or its second part fails
after a successful first part. -/
theorem genBind_err {α : Type u} {β : Type v} {g : Gen α} {f : α → Gen β} {s : RS}
    {e : PyErr} :
    genBind g f s = .error e ↔
      g s = .error e ∨ ∃ a s₁ t₁, g s = .ok (a, s₁, t₁) ∧ f a s₁ = .error e := by
  constructor
  · intro h
    unfold genBind at h
    split at h
    · rename_i e' hg
      cases h
      exact Or.inl hg
    · rename_i a s₁ t₁ hg
      split at h
      · rename_i e' hf
        cases h
        exact Or.inr ⟨a, s₁, t₁, hg, hf⟩
      · cases h
  · rintro (h | ⟨a, s₁, t₁, ha, hb⟩)
    · unfold genBind
      simp [h]
    · unfold genBind
      simp [ha, hb]

theorem evalG_ok {α : Type u} {g : Gen α} {s : RS} {a : α} :
    evalG g s = .ok a ↔ ∃ s' t, g s = .ok (a, s', t) := by
  constructor
  · intro h
    unfold evalG at h
    split at h
    · cases h
    · rename_i a' s' t hg
      cases h
      exact ⟨s', t, hg⟩
  · rintro ⟨s', t, h⟩
    unfold evalG
    simp [h]

theorem evalG_err {α : Type u} {g : Gen α} {s : RS} {e : PyErr} :
    evalG g s = .error e ↔ g s = .error e := by
  constructor
  · intro h
    unfold evalG at h
    split at h
    · rename_i e' hg; cases h; exact hg
    · cases h
  · intro h
    unfold evalG
    simp [h]

theorem traceOf_ok {α : Type u} {g : Gen α} {s : RS} {t : List Event} :
    traceOf g s = .ok t ↔ ∃ a s', g s = .ok (a, s', t) := by
  constructor
  · intro h
    unfold traceOf at h
    split at h
    · cases h
    · rename_i a' s' t' hg
      cases h
      exact ⟨a', s', hg⟩
  · rintro ⟨a, s', h⟩
    unfold traceOf
    simp [h]

/-- `choice` on a nonempty list succeeds, consumes one draw, and returns a
member of the list. -/
theorem choice_run {α : Type} (l : List α) (hl : l ≠ []) (s : RS) :
    ∃ x, choice l s = .ok (x, s.tail, []) ∧ x ∈ l := by
  have h0 : ¬l.length = 0 := fun h => hl (List.length_eq_zero.mp h)
  refine ⟨l.get ⟨s.head % l.length, Nat.mod_lt _ (Nat.pos_of_ne_zero h0)⟩, ?_, List.get_mem ..⟩
  unfold choice
  rw [dif_neg h0]

theorem choice_nil {α : Type} (s : RS) :
    choice ([] : List α) s = .error .indexError := rfl

/-- `randint` on a nonempty range consumes one draw. -/
theorem randint_run (lo hi : Nat) (h : lo ≤ hi) (s : RS) :
    randint lo hi s = .ok (lo + s.head % (hi + 1 - lo), s.tail, []) := by
  unfold randint
  rw [if_neg (Nat.not_lt.mpr h)]
  rfl

/-- The value produced by `randint lo hi` lies in `[lo, hi]`. -/
theorem randint_bounds (lo hi r : Nat) (h : lo ≤ hi) :
    lo ≤ lo + r % (hi + 1 - lo) ∧ lo + r % (hi + 1 - lo) ≤ hi := by
  have hpos : 0 < hi + 1 - lo := by omega
  have := Nat.mod_lt r hpos
  omega

/-! ## Sampling lemmas -/

/-- A list is a permutation of any element consed onto its removal. -/
theorem perm_get_cons_eraseIdx {α : Type} :
    ∀ (l : List α) (i : Nat) (h : i < l.length),
      List.Perm l (l.get ⟨i, h⟩ :: l.eraseIdx i)
  | a :: tl, 0, _ => List.Perm.refl _
  | a :: tl, i + 1, h => by
    have hi : i < tl.length := Nat.lt_of_succ_lt_succ (by simpa using h)
    have ih := perm_get_cons_eraseIdx tl i hi
    have h1 : List.Perm (a :: tl) (a :: tl.get ⟨i, hi⟩ :: tl.eraseIdx i) :=
      List.Perm.cons a ih
    have h2 : List.Perm (a :: tl.get ⟨i, hi⟩ :: tl.eraseIdx i)
        (tl.get ⟨i, hi⟩ :: a :: tl.eraseIdx i) :=
      List.Perm.swap _ _ _
    exact h1.trans h2

/-- `sampleGo` always draws a subpermutation (elements at pairwise distinct
positions) of its population. -/
theorem sampleGo_subperm {α : Type} :
    ∀ (k : Nat) (l : List α) (s : RS), List.Subperm (sampleGo l k s).1 l
  | 0, l, s => List.nil_subperm
  | k + 1, l, s => by
    unfold sampleGo
    split
    · exact List.nil_subperm
    · rename_i h
      have hlt : s.head % l.length < l.length := Nat.mod_lt _ (Nat.pos_of_ne_zero h)
      have ih := sampleGo_subperm k (l.eraseIdx (s.head % l.length)) s.tail
      obtain ⟨w, hw₁, hw₂⟩ := ih
      refine List.Subperm.trans ⟨l.get ⟨_, hlt⟩ :: w, List.Perm.cons _ hw₁, hw₂.cons₂ _⟩ ?_
      exact (perm_get_cons_eraseIdx l _ hlt).symm.subperm

/-- When the requested size fits the population, `sampleGo` returns exactly
that many elements. -/
theorem sampleGo_length {α : Type} :
    ∀ (k : Nat) (l : List α) (s : RS), k ≤ l.length → (sampleGo l k s).1.length = k
  | 0, l, s, _ => rfl
  | k + 1, l, s, hk => by
    unfold sampleGo
    split
    · rename_i h
      omega
    · rename_i h
      have hlt : s.head % l.length < l.length := Nat.mod_lt _ (Nat.pos_of_ne_zero h)
      have hlen : (l.eraseIdx (s.head % l.length)).length = l.length - 1 := by
        rw [List.length_eraseIdx]
        simp [hlt]
      have ih := sampleGo_length k (l.eraseIdx (s.head % l.length)) s.tail (by omega)
      simpa using ih

/-- A subpermutation of a duplicate-free list is duplicate-free. -/
theorem subperm_nodup {α : Type} {l₁ l₂ : List α}
    (h : List.Subperm l₁ l₂) (h₂ : l₂.Nodup) : l₁.Nodup := by
  obtain ⟨w, hw₁, hw₂⟩ := h
  exact hw₁.nodup (h₂.sublist hw₂)

/-- `sample l k` with `k ≤ length`: succeeds, returns `k` elements drawn at
pairwise distinct positions of `l`. -/
theorem sample_run {α : Type} (l : List α) (k : Nat) (hk : k ≤ l.length) (s : RS) :
    ∃ out s', sample l k s = .ok (out, s', []) ∧ out.length = k ∧
      List.Subperm out l := by
  refine ⟨(sampleGo l k s).1, (sampleGo l k s).2, ?_, sampleGo_length k l s hk,
    sampleGo_subperm k l s⟩
  unfold sample
  rw [if_neg (Nat.not_lt.mpr hk)]

/-! ## Shared-reference shape lemmas -/

/-- The character list of `"[[" ++ n ++ "]]"`. -/
theorem chars_wrap (n : String) :
    chars ("[[" ++ n ++ "]]") = '[' :: '[' :: (chars n ++ [']', ']']) := by
  show (("[[" ++ n) ++ "]]").data = _
  rw [String.data_append, String.data_append]
  rfl

/-- Every `[[name]]` string passes the shared-reference shape test. -/
theorem sharedShape_wrap (n : String) : sharedShape ("[[" ++ n ++ "]]") = true := by
  unfold sharedShape
  rw [chars_wrap]
  apply Bool.and_eq_true_iff.mpr
  constructor
  · exact List.isPrefixOf_iff_prefix.mpr ⟨chars n ++ [']', ']'], rfl⟩
  · apply List.isSuffixOf_iff_suffix.mpr
    have : '[' :: '[' :: (chars n ++ [']', ']'])
        = ('[' :: '[' :: chars n) ++ [']', ']'] := by simp
    rw [this]
    exact List.suffix_append _ _
/-- Slicing `[2:-2]` out of `[[name]]` recovers `name`. -/
theorem sharedName_wrap (n : String) : sharedName ("[[" ++ n ++ "]]") = n := by
  unfold sharedName
  rw [chars_wrap]
  have hdrop : (('[' :: '[' :: (chars n ++ [']', ']'])).drop 2) = chars n ++ [']', ']'] := rfl
  have hlen : ('[' :: '[' :: (chars n ++ [']', ']'])).length - 4 = (chars n).length := by
    simp
  rw [hdrop, hlen, List.take_left]
  rfl

/-- Unfolding of `_generate_cell_value` on a `[[name]]` spec. -/
theorem cell_sharedRef (name : String) (idx : Nat) (cfg : Config) (sh : SharedData) :
    _generate_cell_value ("[[" ++ name ++ "]]") idx cfg sh =
      genBind (emit (.resolveSharedRef name)) fun _ =>
        match sh.lookup name with
        | some col =>
          if h : idx < col.length then genPure (col.get ⟨idx, h⟩)
          else choice col
        | Option.none => genErr .valueError := by
  unfold _generate_cell_value
  rw [sharedShape_wrap, sharedName_wrap, if_pos rfl]

/-! ## Claim C9: empty CSV write -/

/-- C9: writing a table with zero rows in CSV format never raises (the model
of `_write_csv` is a total function) and produces no output file: the writer
performs no file action at all, in particular it never opens the
destination. -/
theorem c9_csv_zero_rows :
    _write_csv [] = [] ∧ FileAction.openWrite ∉ _write_csv [] := by
  constructor
  · rfl
  · intro h
    simp [_write_csv] at h

/-! ## Claim C10: empty shared column -/

/-- C10: if a shared column is defined but empty (as produced e.g. by an
explicit row count of 0, second conjunct), resolving a `[[name]]` reference
to it at any row index raises an unguarded `IndexError` — `random.choice` on
an empty sequence — rather than returning a value or the typed
`ValueError` used for undefined columns. -/
theorem c10_empty_shared_column (name : String) (sh : SharedData) (cfg : Config)
    (idx : Nat) (s : RS) (h : sh.lookup name = some []) :
    evalG (_generate_cell_value ("[[" ++ name ++ "]]") idx cfg sh) s
        = .error .indexError ∧
    ∀ (value_spec : String) (s' : RS),
      evalG (_generate_column value_spec (some 0) cfg sh) s' = .ok [] := by
  constructor
  · rw [evalG_err, cell_sharedRef, genBind_err]
    refine Or.inr ⟨(), s, [.resolveSharedRef name], rfl, ?_⟩
    rw [h]
    rfl
  · intro value_spec s'
    rfl

/-- Concrete run of the C10 scenario, discharging the hypothesis. -/
theorem c10_empty_shared_column_witness :
    evalG (_generate_cell_value ("[[" ++ "a" ++ "]]") 3 [] [("a", [])]) constStream
        = .error .indexError ∧
    ∀ (value_spec : String) (s' : RS),
      evalG (_generate_column value_spec (some 0) [] [("a", [])]) s' = .ok [] :=
  c10_empty_shared_column "a" [("a", [])] [] 3 constStream (by decide)

/-! ## Claim C3: SharedRef resolution -/

/-- C3 (amended): resolving a `[[name]]` value-spec: an undefined name fails
with the configuration `ValueError`; a defined name with `rowIndex` inside the
column returns the element at `rowIndex`; a defined name with `rowIndex` at or
past the end returns a uniformly random element of the column **provided the
column is nonempty** (the empty case instead raises `IndexError`, see the
counterexample and claim C10). -/
theorem c3_sharedref_resolution (name : String) (sh : SharedData) (cfg : Config)
    (idx : Nat) (s : RS) :
    (sh.lookup name = Option.none →
      evalG (_generate_cell_value ("[[" ++ name ++ "]]") idx cfg sh) s
        = .error .valueError) ∧
    (∀ (col : List Value) (hcol : sh.lookup name = some col) (hlt : idx < col.length),
      evalG (_generate_cell_value ("[[" ++ name ++ "]]") idx cfg sh) s
        = .ok (col.get ⟨idx, hlt⟩)) ∧
    (∀ (col : List Value), sh.lookup name = some col → col.length ≤ idx → col ≠ [] →
      ∃ v, evalG (_generate_cell_value ("[[" ++ name ++ "]]") idx cfg sh) s
        = .ok v ∧ v ∈ col) := by
  refine ⟨?_, ?_, ?_⟩
  · intro h
    rw [evalG_err, cell_sharedRef, genBind_err]
    refine Or.inr ⟨(), s, [.resolveSharedRef name], rfl, ?_⟩
    rw [h]
    rfl
  · intro col hcol hlt
    rw [evalG_ok]
    refine ⟨s, [.resolveSharedRef name], ?_⟩
    rw [cell_sharedRef, genBind_ok]
    refine ⟨(), s, [.resolveSharedRef name], [], rfl, ?_, rfl⟩
    rw [hcol]
    show (if h : idx < col.length then genPure (col.get ⟨idx, h⟩) else choice col) s
      = .ok (col.get ⟨idx, hlt⟩, s, [])
    rw [dif_pos hlt]
    rfl
  · intro col hcol hge hne
    obtain ⟨x, hx, hmem⟩ := choice_run col hne s
    refine ⟨x, ?_, hmem⟩
    rw [evalG_ok]
    refine ⟨s.tail, [.resolveSharedRef name], ?_⟩
    rw [cell_sharedRef, genBind_ok]
    refine ⟨(), s, [.resolveSharedRef name], [], rfl, ?_, rfl⟩
    rw [hcol]
    show (if h : idx < col.length then genPure (col.get ⟨idx, h⟩) else choice col) s
      = .ok (x, s.tail, [])
    rw [dif_neg (Nat.not_lt.mpr hge)]
    exact hx

/-- Concrete run of the in-range clause of C3, discharging its hypotheses. -/
theorem c3_sharedref_resolution_witness :
    evalG (_generate_cell_value ("[[" ++ "a" ++ "]]") 1 []
        [("a", [Value.int 7, Value.int 8])]) constStream = .ok (Value.int 8) :=
  (c3_sharedref_resolution "a" [("a", [Value.int 7, Value.int 8])] [] 1
    constStream).2.1 [Value.int 7, Value.int 8] (by decide) (by decide)

/-- Counterexample to C3 as stated: the shared column `a` is defined and the
row index `0` is not below its length, yet resolution raises `IndexError`
instead of returning an element of the column. -/
theorem c3_sharedref_counterexample :
    [("a", ([] : List Value))].lookup "a" = some [] ∧
    ([] : List Value).length ≤ 0 ∧
    evalG (_generate_cell_value "[[a]]" 0 [] [("a", [])]) constStream
      = .error .indexError := by decide

/-! ## Claim C4: literal fallback -/

/-- The primitive/fallback tail returns the spec verbatim when the spec is
none of the four primitive tokens. -/
theorem genPrimOrLiteral_fallback (value_spec : String) (s : RS)
    (h8 : value_spec ≠ "str") (h9 : value_spec ≠ "int")
    (h10 : value_spec ≠ "float") (h11 : value_spec ≠ "bool") :
    genPrimOrLiteral value_spec s = .ok (.str value_spec, s, []) := by
  unfold genPrimOrLiteral
  rw [if_neg h8, if_neg h9, if_neg h10, if_neg h11]
  rfl

/-- C4 (amended): a value-spec that matches none of the mini-grammar rules
1-7 **and** does not begin with `UNIQUE[` or `CHOOSE[` **and** does not match
the pool-selection pattern with a defined pool name resolves, at every row
index and under every random stream, to the spec string itself verbatim,
consuming no randomness and raising no error. (The three extra exclusions
are forced by the code: `UNIQUE[`-prefixed non-matches return the row index,
`CHOOSE[`-prefixed non-matches return Python `None`, and a defined pool name
with a malformed count raises `ValueError` from `int(...)` — see the
counterexample.) -/
theorem c4_literal_fallback (value_spec : String) (idx : Nat) (cfg : Config)
    (sh : SharedData) (s : RS)
    (h1 : sharedShape value_spec = false)
    (h2 : value_spec ≠ "NAME") (h3 : value_spec ≠ "NAMES")
    (h4 : (chars "UNIQUE[").isPrefixOf (chars value_spec) = false)
    (h5 : (chars "CHOOSE[").isPrefixOf (chars value_spec) = false)
    (h6 : CONSTANT_MAP.lookup value_spec = Option.none)
    (h7 : poolSelHit value_spec = false)
    (h8 : value_spec ≠ "str") (h9 : value_spec ≠ "int")
    (h10 : value_spec ≠ "float") (h11 : value_spec ≠ "bool") :
    _generate_cell_value value_spec idx cfg sh s = .ok (.str value_spec, s, []) := by
  unfold _generate_cell_value
  simp only [h1, h4, h5, Bool.false_eq_true, if_false, if_neg h2, if_neg h3]
  unfold genPoolValue
  rw [h6]
  unfold poolSelHit at h7
  cases hps : poolSel (chars value_spec) with
  | none =>
    exact genPrimOrLiteral_fallback value_spec s h8 h9 h10 h11
  | some p =>
    obtain ⟨cname, cnt⟩ := p
    simp only [hps] at h7
    have hnone : CONSTANT_MAP.lookup (ofChars cname) = Option.none := by
      cases hlk : CONSTANT_MAP.lookup (ofChars cname) with
      | none => rfl
      | some pool => rw [hlk] at h7; simp at h7
    simp only [hnone]
    exact genPrimOrLiteral_fallback value_spec s h8 h9 h10 h11

/-- Concrete run of C4 on a plain literal spec, discharging the
hypotheses. -/
theorem c4_literal_fallback_witness :
    _generate_cell_value "hello" 0 [] [] constStream
      = .ok (.str "hello", constStream, []) :=
  c4_literal_fallback "hello" 0 [] [] constStream (by decide) (by decide)
    (by decide) (by decide) (by decide) (by decide) (by decide) (by decide)
    (by decide) (by decide) (by decide)

/-- Counterexample to C4 as stated: `CHOOSE[x` matches none of the grammar
rules 1-7 (in particular `parseChoose` rejects it), yet resolution returns
Python `None` instead of the spec string verbatim; and `THEMES[1n]` (a
defined pool with a count that is neither `n` nor an integer, so no rule of
the grammar) raises `ValueError` instead of resolving verbatim. -/
theorem c4_literal_fallback_counterexample :
    parseChoose (chars "CHOOSE[x") = Option.none ∧
    evalG (_generate_cell_value "CHOOSE[x" 0 [] []) constStream = .ok .none ∧
    Value.none ≠ .str "CHOOSE[x" ∧
    evalG (_generate_cell_value "THEMES[1n]" 0 [] []) constStream
      = .error .valueError := by decide

/-! ## Claim C5: CHOOSE with explicit count -/

/-- Stripping does nothing to a digit run. -/
theorem pyStrip_digits (cs : List Char) (h : cs.all Char.isDigit = true) :
    pyStrip cs = cs := by
  have hds : ∀ (l : List Char), l.all Char.isDigit = true → l.dropWhile (· = ' ') = l := by
    intro l hl
    cases l with
    | nil => rfl
    | cons c tl =>
      rw [List.dropWhile_cons_of_neg]
      simp only [List.all_cons, Bool.and_eq_true] at hl
      intro hc
      have hceq : c = ' ' := of_decide_eq_true hc
      rw [hceq] at hl
      exact absurd hl.1 (by decide)
  unfold pyStrip
  rw [hds cs h]
  have hrev : cs.reverse.all Char.isDigit = true := by
    rw [List.all_eq_true] at h ⊢
    intro c hc
    exact h c (List.mem_reverse.mp hc)
  rw [hds cs.reverse hrev, List.reverse_reverse]

/-- `int(...)` on a nonempty digit run is its numeric value. -/
theorem pyInt_digits (cs : List Char) (hne : cs ≠ []) (h : cs.all Char.isDigit = true) :
    pyInt cs = genPure (digitsVal cs) := by
  unfold pyInt
  rw [pyStrip_digits cs h, if_pos ⟨hne, h⟩]

/-- Unfolding of `_generate_choose_value` once the regex match is known. -/
theorem choose_unfold (value_spec : String) (its : List Char) (cs : Option (List Char))
    (hp : parseChoose (chars value_spec) = some (its, cs)) :
    _generate_choose_value value_spec =
      genBind (chooseItems its) fun items =>
        match cs with
        | Option.none => genBind (choice items) fun x => genPure x.toValue
        | some c =>
          if c = chars "n" then
            genBind (randint 1 items.length) fun count =>
              genBind (sample items (min count items.length)) fun xs =>
                genPure (.vlist xs)
          else if c = chars "1" then
            genBind (choice items) fun x => genPure x.toValue
          else
            genBind (pyInt c) fun count =>
              genBind (sample items (min count items.length)) fun xs =>
                genPure (.vlist xs) := by
  unfold _generate_choose_value
  rw [hp]

/-- C5 (amended): resolving `CHOOSE[[items]][[k]]` with an explicit all-digit
count `k` other than `1` always returns exactly `min(k, itemCount)` values
sampled from the items without replacement **by position** (a
subpermutation); the returned values are pairwise distinct whenever the
parsed items are pairwise distinct — in particular `CHOOSE[[a,b,c]][[2]]`
always returns 2 distinct values from that set (witness). Distinctness of
the output cannot hold for item lists that themselves repeat a value
(counterexample). -/
theorem c5_choose_explicit_count (value_spec : String) (its cs : List Char)
    (items : List Prim) (s : RS)
    (hp : parseChoose (chars value_spec) = some (its, some cs))
    (hne : cs ≠ [])
    (hd : cs.all Char.isDigit = true)
    (h1 : cs ≠ chars "1")
    (hi : chooseItems its s = .ok (items, s, [])) :
    ∃ out, evalG (_generate_choose_value value_spec) s = .ok (.vlist out) ∧
      out.length = min (digitsVal cs) items.length ∧
      List.Subperm out items ∧
      (items.Nodup → out.Nodup) := by
  have hn : cs ≠ chars "n" := by
    intro e
    have hfalse : (chars "n").all Char.isDigit = false := by decide
    rw [e, hfalse] at hd
    cases hd
  obtain ⟨out, s', hs, hlen, hsub⟩ :=
    sample_run items (min (digitsVal cs) items.length) (Nat.min_le_right _ _) s
  refine ⟨out, ?_, hlen, hsub, fun hnd => subperm_nodup hsub hnd⟩
  rw [evalG_ok]
  refine ⟨s', [], ?_⟩
  rw [choose_unfold value_spec its (some cs) hp, genBind_ok]
  refine ⟨items, s, [], [], hi, ?_, rfl⟩
  simp only [if_neg hn, if_neg h1]
  rw [genBind_ok]
  refine ⟨digitsVal cs, s, [], [], by rw [pyInt_digits cs hne hd]; rfl, ?_, rfl⟩
  rw [genBind_ok]
  exact ⟨out, s', [], [], hs, rfl, rfl⟩

/-- Concrete run of C5 on `CHOOSE[[a,b,c]][[2]]`, discharging the
hypotheses. -/
theorem c5_choose_explicit_count_witness :
    ∃ out, evalG (_generate_choose_value "CHOOSE[[a,b,c]][[2]]") constStream
        = .ok (.vlist out) ∧
      out.length = min (digitsVal (chars "2"))
        ([Prim.str "a", Prim.str "b", Prim.str "c"] : List Prim).length ∧
      List.Subperm out [Prim.str "a", Prim.str "b", Prim.str "c"] ∧
      (([Prim.str "a", Prim.str "b", Prim.str "c"] : List Prim).Nodup → out.Nodup) :=
  c5_choose_explicit_count "CHOOSE[[a,b,c]][[2]]" (chars "a,b,c") (chars "2")
    [Prim.str "a", Prim.str "b", Prim.str "c"] constStream
    (by decide) (by decide) (by decide) (by decide) rfl

/-- Counterexample to C5 as stated: `CHOOSE[[a,a]][[2]]` returns the two
values `a`, `a`, which are not pairwise distinct members of the item set. -/
theorem c5_choose_explicit_count_counterexample :
    evalG (_generate_choose_value "CHOOSE[[a,a]][[2]]") constStream
      = .ok (.vlist [.str "a", .str "a"]) ∧
    ¬ ([Prim.str "a", Prim.str "a"] : List Prim).Nodup := by
  constructor
  · decide
  · decide

/-! ## Claim C7: fixed row counts and row shapes -/

/-- Keys of a generated row are the declared column names in declaration
order. -/
theorem genRowCells_keys (columns : List (String × String)) :
    ∀ (idx : Nat) (cfg : Config) (sh : SharedData) (s : RS) (r : Row) (s' : RS)
      (t : List Event),
      genRowCells idx cfg sh columns s = .ok (r, s', t) →
      r.map Prod.fst = columns.map Prod.fst := by
  induction columns with
  | nil =>
    intro idx cfg sh s r s' t h
    have : r = [] := by
      have h' := h
      unfold genRowCells at h'
      rw [genPure_run] at h'
      simp only [Except.ok.injEq, Prod.mk.injEq] at h'
      exact h'.1.symm
    rw [this]
    rfl
  | cons hd tl ih =>
    intro idx cfg sh s r s' t h
    obtain ⟨col_name, value_spec⟩ := hd
    unfold genRowCells at h
    rw [genBind_ok] at h
    obtain ⟨v, s₁, t₁, t₂, hcell, h, rfl⟩ := h
    rw [genBind_ok] at h
    obtain ⟨r₂, s₂, t₃, t₄, hrec, hpure, rfl⟩ := h
    rw [genPure_run] at hpure
    simp only [Except.ok.injEq, Prod.mk.injEq] at hpure
    rw [← hpure.1]
    simpa using ih idx cfg sh s₁ r₂ s₂ t₃ hrec

/-- `genRowsFrom` yields exactly the requested number of rows, each with the
declared keys. -/
theorem genRowsFrom_spec (columns : List (String × String)) (cfg : Config)
    (sh : SharedData) :
    ∀ (n idx : Nat) (s : RS) (out : List Row) (s' : RS) (t : List Event),
      genRowsFrom columns cfg sh idx n s = .ok (out, s', t) →
      out.length = n ∧ ∀ r ∈ out, r.map Prod.fst = columns.map Prod.fst := by
  intro n
  induction n with
  | zero =>
    intro idx s out s' t h
    unfold genRowsFrom at h
    rw [genPure_run] at h
    simp only [Except.ok.injEq, Prod.mk.injEq] at h
    rw [← h.1]
    exact ⟨rfl, by intro r hr; cases hr⟩
  | succ m ih =>
    intro idx s out s' t h
    unfold genRowsFrom at h
    rw [genBind_ok] at h
    obtain ⟨row, s₁, t₁, t₂, hrow, h, rfl⟩ := h
    rw [genBind_ok] at h
    obtain ⟨rest, s₂, t₃, t₄, hrest, hpure, rfl⟩ := h
    rw [genPure_run] at hpure
    simp only [Except.ok.injEq, Prod.mk.injEq] at hpure
    rw [← hpure.1]
    obtain ⟨hlen, hkeys⟩ := ih (idx + 1) s₁ rest s₂ t₃ hrest
    refine ⟨by simp [hlen], ?_⟩
    intro r hr
    rcases List.mem_cons.mp hr with rfl | hmem
    · exact genRowCells_keys columns idx cfg sh s r s₁ t₁ hrow
    · exact hkeys r hmem

/-- With an explicit parsed row count, the count phase is a pure return. -/
theorem tableRowCount_explicit (table_spec : String) (columns : List (String × String))
    (sh : SharedData) (cfg : Config) (n : Nat)
    (h : (_parse_column_spec table_spec cfg).2 = some n) :
    tableRowCount table_spec columns sh cfg = genPure n := by
  unfold tableRowCount
  rw [h]

/-- C7: for every table, a successful generation run fixes the row count in
the count phase before any cell is generated and produces exactly that many
rows (first conjunct); each row is a mapping whose key list is exactly the
declared column names in declaration order (second conjunct); and with an
explicit parsed row count `n`, any two successful runs — regardless of their
random streams — both have exactly `n` rows (third conjunct), hence identical
row counts and identical column-key sets. -/
theorem c7_row_count_and_keys (table_spec : String) (columns : List (String × String))
    (sh : SharedData) (cfg : Config) (s : RS) (res : List Row)
    (h : evalG (_generate_table table_spec columns sh cfg) s = .ok res) :
    (∃ n, evalG (tableRowCount table_spec columns sh cfg) s = .ok n ∧ res.length = n) ∧
    (∀ r ∈ res, r.map Prod.fst = columns.map Prod.fst) ∧
    (∀ (n : Nat), (_parse_column_spec table_spec cfg).2 = some n →
      ∀ (s₂ : RS) (res₂ : List Row),
        evalG (_generate_table table_spec columns sh cfg) s₂ = .ok res₂ →
        res.length = n ∧ res₂.length = n) := by
  rw [evalG_ok] at h
  obtain ⟨s', t, hrun⟩ := h
  unfold _generate_table at hrun
  rw [genBind_ok] at hrun
  obtain ⟨n, s₁, t₁, t₂, hcount, hrows, rfl⟩ := hrun
  obtain ⟨hlen, hkeys⟩ := genRowsFrom_spec columns cfg sh n 0 s₁ res s' t₂ hrows
  refine ⟨⟨n, evalG_ok.mpr ⟨s₁, t₁, hcount⟩, hlen⟩, hkeys, ?_⟩
  intro m hm s₂ res₂ h₂
  rw [tableRowCount_explicit table_spec columns sh cfg m hm] at hcount
  rw [genPure_run] at hcount
  simp only [Except.ok.injEq, Prod.mk.injEq] at hcount
  rw [evalG_ok] at h₂
  obtain ⟨s₂', t', hrun₂⟩ := h₂
  unfold _generate_table at hrun₂
  rw [tableRowCount_explicit table_spec columns sh cfg m hm, genBind_ok] at hrun₂
  obtain ⟨n₂, s₃, t₃, t₄, hcount₂, hrows₂, rfl⟩ := hrun₂
  rw [genPure_run] at hcount₂
  simp only [Except.ok.injEq, Prod.mk.injEq] at hcount₂
  obtain ⟨hlen₂, _⟩ := genRowsFrom_spec columns cfg sh n₂ 0 s₃ res₂ s₂' t₄ hrows₂
  constructor
  · rw [hlen, ← hcount.1]
  · rw [hlen₂, ← hcount₂.1]

/-- Concrete run of C7, discharging the hypotheses. -/
theorem c7_row_count_and_keys_witness :
    (∃ n, evalG (tableRowCount "t[2]" [("a", "int")] [] []) constStream = .ok n ∧
      ([[("a", Value.int 0)], [("a", Value.int 0)]] : List Row).length = n) ∧
    (∀ r ∈ ([[("a", Value.int 0)], [("a", Value.int 0)]] : List Row),
      r.map Prod.fst = [("a", "int")].map Prod.fst) ∧
    (∀ (n : Nat), (_parse_column_spec "t[2]" []).2 = some n →
      ∀ (s₂ : RS) (res₂ : List Row),
        evalG (_generate_table "t[2]" [("a", "int")] [] []) s₂ = .ok res₂ →
        ([[("a", Value.int 0)], [("a", Value.int 0)]] : List Row).length = n ∧
          res₂.length = n) :=
  c7_row_count_and_keys "t[2]" [("a", "int")] [] [] constStream
    [[("a", Value.int 0)], [("a", Value.int 0)]] (by decide)

/-! ## Claim C2: row-count inference order -/

/-- Under the precondition that every `[[...]]`-shaped column names a defined
shared column, the inference loop returns the length of the shared column
named by the first `[[...]]`-shaped column, and `none` when no column has
that shape. -/
theorem findSharedLen_first (sh : SharedData) :
    ∀ (columns : List (String × String)),
      (∀ p ∈ columns, sharedShape p.2 = true → (sh.lookup (sharedName p.2)).isSome) →
      match columns.find? (fun p => sharedShape p.2) with
      | some p => ∃ col, sh.lookup (sharedName p.2) = some col ∧
          findSharedLen columns sh = some col.length
      | Option.none => findSharedLen columns sh = Option.none := by
  intro columns
  induction columns with
  | nil => intro _; simp [findSharedLen]
  | cons hd tl ih =>
    intro hpre
    obtain ⟨cn, v⟩ := hd
    by_cases hv : sharedShape v = true
    · have hf : List.find? (fun p => sharedShape p.2) ((cn, v) :: tl) = some (cn, v) :=
        @List.find?_cons_of_pos _ (fun p => sharedShape p.2) (cn, v) tl hv
      rw [hf]
      show ∃ col, sh.lookup (sharedName v) = some col ∧
          findSharedLen ((cn, v) :: tl) sh = some col.length
      have hsome := hpre (cn, v) (List.mem_cons_self _ _) hv
      cases hlk : sh.lookup (sharedName v) with
      | none => rw [hlk] at hsome; cases hsome
      | some col =>
        refine ⟨col, rfl, ?_⟩
        show (if sharedShape v = true then
                match sh.lookup (sharedName v) with
                | some col => some col.length
                | Option.none => findSharedLen tl sh
              else findSharedLen tl sh) = some col.length
        rw [if_pos hv, hlk]
    · have hf : List.find? (fun p => sharedShape p.2) ((cn, v) :: tl) =
          List.find? (fun p => sharedShape p.2) tl :=
        @List.find?_cons_of_neg _ (fun p => sharedShape p.2) (cn, v) tl hv
      rw [hf]
      have hrec : findSharedLen ((cn, v) :: tl) sh = findSharedLen tl sh := by
        show (if sharedShape v = true then
                match sh.lookup (sharedName v) with
                | some col => some col.length
                | Option.none => findSharedLen tl sh
              else findSharedLen tl sh) = findSharedLen tl sh
        rw [if_neg hv]
      have htl := ih (fun p hp hs => hpre p (List.mem_cons_of_mem _ hp) hs)
      cases hfind : List.find? (fun p => sharedShape p.2) tl with
      | none =>
        rw [hfind] at htl
        have htl' : findSharedLen tl sh = Option.none := htl
        show findSharedLen ((cn, v) :: tl) sh = Option.none
        rw [hrec]
        exact htl'
      | some p =>
        rw [hfind] at htl
        have htl' : ∃ col, sh.lookup (sharedName p.2) = some col ∧
            findSharedLen tl sh = some col.length := htl
        show ∃ col, sh.lookup (sharedName p.2) = some col ∧
            findSharedLen ((cn, v) :: tl) sh = some col.length
        obtain ⟨col, hcol, hlen⟩ := htl'
        exact ⟨col, hcol, by rw [hrec]; exact hlen⟩

/-- C2: for a table whose table-spec parses to no explicit row count, under
the precondition that every `[[...]]`-shaped column value-spec names a
defined shared column: if some column value-spec has the shared-reference
shape, every successful generation run has exactly as many rows as the shared
column named by the FIRST such column (declaration order); if no column has
that shape, the row count is the uniform image `10 + r % 41` of the first
stream draw, hence lies in `[10, 50]`. -/
theorem c2_row_count_inference (table_spec : String) (columns : List (String × String))
    (sh : SharedData) (cfg : Config) (s : RS) (res : List Row)
    (hno : (_parse_column_spec table_spec cfg).2 = Option.none)
    (hpre : ∀ p ∈ columns, sharedShape p.2 = true → (sh.lookup (sharedName p.2)).isSome)
    (h : evalG (_generate_table table_spec columns sh cfg) s = .ok res) :
    match columns.find? (fun p => sharedShape p.2) with
    | some p => ∃ col, sh.lookup (sharedName p.2) = some col ∧ res.length = col.length
    | Option.none => res.length = 10 + s.head % 41 ∧ 10 ≤ res.length ∧ res.length ≤ 50 := by
  rw [evalG_ok] at h
  obtain ⟨s', t, hrun⟩ := h
  unfold _generate_table at hrun
  rw [genBind_ok] at hrun
  obtain ⟨n, s₁, t₁, t₂, hcount, hrows, rfl⟩ := hrun
  obtain ⟨hlen, -⟩ := genRowsFrom_spec columns cfg sh n 0 s₁ res s' t₂ hrows
  unfold tableRowCount at hcount
  rw [hno] at hcount
  have hfirst := findSharedLen_first sh columns hpre
  cases hfind : columns.find? (fun p => sharedShape p.2) with
  | some p =>
    rw [hfind] at hfirst
    have hfirst' : ∃ col, sh.lookup (sharedName p.2) = some col ∧
        findSharedLen columns sh = some col.length := hfirst
    obtain ⟨col, hcol, hfsl⟩ := hfirst'
    rw [hfsl] at hcount
    have hcount' : genPure col.length s = Except.ok (n, s₁, t₁) := hcount
    rw [genPure_run] at hcount'
    simp only [Except.ok.injEq, Prod.mk.injEq] at hcount'
    show ∃ col, sh.lookup (sharedName p.2) = some col ∧ res.length = col.length
    exact ⟨col, hcol, by rw [hlen, ← hcount'.1]⟩
  | none =>
    rw [hfind] at hfirst
    have hfirst' : findSharedLen columns sh = Option.none := hfirst
    rw [hfirst'] at hcount
    have hcount' : randint 10 50 s = Except.ok (n, s₁, t₁) := hcount
    rw [randint_run 10 50 (by omega) s] at hcount'
    simp only [Except.ok.injEq, Prod.mk.injEq] at hcount'
    have hb := randint_bounds 10 50 s.head (by omega)
    have hn : n = 10 + s.head % 41 := by
      rw [← hcount'.1]
    show res.length = 10 + s.head % 41 ∧ 10 ≤ res.length ∧ res.length ≤ 50
    refine ⟨by rw [hlen, hn], ?_, ?_⟩ <;> rw [hlen, hn] <;> omega

/-- Concrete run of C2 (shared-reference case), discharging the
hypotheses. -/
theorem c2_row_count_inference_witness :
    match ([("x", "[[id]]")] : List (String × String)).find?
        (fun p => sharedShape p.2) with
    | some p => ∃ col,
        ([("id", [Value.int 1, Value.int 2, Value.int 3])] : SharedData).lookup
          (sharedName p.2) = some col ∧
        ([[("x", Value.int 1)], [("x", Value.int 2)], [("x", Value.int 3)]] :
          List Row).length = col.length
    | Option.none =>
        ([[("x", Value.int 1)], [("x", Value.int 2)], [("x", Value.int 3)]] :
          List Row).length = 10 + constStream.head % 41 ∧
        10 ≤ ([[("x", Value.int 1)], [("x", Value.int 2)], [("x", Value.int 3)]] :
          List Row).length ∧
        ([[("x", Value.int 1)], [("x", Value.int 2)], [("x", Value.int 3)]] :
          List Row).length ≤ 50 :=
  c2_row_count_inference "users" [("x", "[[id]]")]
    [("id", [Value.int 1, Value.int 2, Value.int 3])] [] constStream
    [[("x", Value.int 1)], [("x", Value.int 2)], [("x", Value.int 3)]]
    (by decide) (by decide) (by decide)

/-! ## Claim C6: missing config variable in a row-count annotation -/

theorem ofChars_chars (s : String) : ofChars (chars s) = s := rfl

theorem chars_append (a b : String) : chars (a ++ b) = chars a ++ chars b :=
  String.data_append a b

/-- A greedy character-class scan over `xs ++ y :: ys` stops exactly at `y`
when every character of `xs` satisfies the class and `y` does not. -/
theorem takeWhile_append_stop (p : Char → Bool) (xs : List Char) (y : Char)
    (ys : List Char) (hxs : ∀ c ∈ xs, p c = true) (hy : p y = false) :
    (xs ++ y :: ys).takeWhile p = xs := by
  rw [List.takeWhile_append, List.takeWhile_eq_self_iff.mpr hxs, if_pos rfl,
    List.takeWhile_cons_of_neg (by rw [hy]; exact Bool.false_ne_true), List.append_nil]

/-- The first column-spec regex on `t[[V]]` with bracket-free `t` and
bracket-free nonempty `V`. -/
theorem matchDoubleBracket_wrap (t V : String)
    (ht1 : chars t ≠ []) (ht2 : '[' ∉ chars t)
    (hv1 : chars V ≠ []) (hv2 : ']' ∉ chars V) :
    matchDoubleBracket (chars t ++ ('[' :: '[' :: (chars V ++ [']', ']'])))
      = some (chars t, chars V) := by
  have hname : (chars t ++ ('[' :: '[' :: (chars V ++ [']', ']']))).takeWhile
      (fun c => c ≠ '[') = chars t := by
    apply takeWhile_append_stop
    · intro c hc
      simp only [ne_eq, decide_eq_true_eq]
      intro heq
      rw [heq] at hc
      exact ht2 hc
    · simp
  have hvar : (chars V ++ [']', ']']).takeWhile (fun c => c ≠ ']') = chars V := by
    apply takeWhile_append_stop
    · intro c hc
      simp only [ne_eq, decide_eq_true_eq]
      intro heq
      rw [heq] at hc
      exact hv2 hc
    · simp
  obtain ⟨c, ctl, hct⟩ : ∃ c ctl, chars t = c :: ctl := by
    cases hc : chars t with
    | nil => exact absurd hc ht1
    | cons c ctl => exact ⟨c, ctl, rfl⟩
  obtain ⟨d, dtl, hdt⟩ : ∃ d dtl, chars V = d :: dtl := by
    cases hd : chars V with
    | nil => exact absurd hd hv1
    | cons d dtl => exact ⟨d, dtl, rfl⟩
  unfold matchDoubleBracket
  simp only [hname, List.drop_left]
  rw [hct]
  simp only []
  rw [← hct]
  simp only [hvar, List.drop_left]
  rw [hdt]

/-- Neither column-spec regex can match a bracket-free spec. -/
theorem matchBrackets_plain (t : String) (ht2 : '[' ∉ chars t) :
    matchDoubleBracket (chars t) = Option.none ∧
    matchIntBracket (chars t) = Option.none := by
  have hall : (chars t).takeWhile (fun c => c ≠ '[') = chars t := by
    apply List.takeWhile_eq_self_iff.mpr
    intro c hc
    simp only [ne_eq, decide_eq_true_eq]
    intro heq
    rw [heq] at hc
    exact ht2 hc
  constructor
  · unfold matchDoubleBracket
    simp only [hall, List.drop_length]
    cases chars t with
    | nil => rfl
    | cons c ctl => rfl
  · unfold matchIntBracket
    simp only [hall, List.drop_length]
    cases chars t with
    | nil => rfl
    | cons c ctl => rfl

/-- C6: when a `[[VAR]]` row-count annotation names a key absent from the
config mapping, parsing does not fail: the spec parses to its bare name with
no count (first conjunct), exactly as the unannotated spec does (second
conjunct); consequently table generation behaves identically to the
unannotated table-spec — the count falls back to the normal defaulting rules
(shared-reference inference, then a random count in `[10, 50]`) (third
conjunct), and likewise for the row-count argument of shared-column
generation (fourth conjunct). -/
theorem c6_missing_config_var (t V : String) (cfg : Config)
    (ht1 : chars t ≠ []) (ht2 : '[' ∉ chars t)
    (hv1 : chars V ≠ []) (hv2 : ']' ∉ chars V)
    (hv3 : cfg.lookup V = Option.none) :
    _parse_column_spec (t ++ "[[" ++ V ++ "]]") cfg = (t, Option.none) ∧
    _parse_column_spec t cfg = (t, Option.none) ∧
    (∀ (columns : List (String × String)) (sh : SharedData) (s : RS),
      _generate_table (t ++ "[[" ++ V ++ "]]") columns sh cfg s
        = _generate_table t columns sh cfg s) ∧
    (∀ (value_spec : String) (sh : SharedData) (s : RS),
      _generate_column value_spec (_parse_column_spec (t ++ "[[" ++ V ++ "]]") cfg).2
          cfg sh s
        = _generate_column value_spec Option.none cfg sh s) := by
  have hdata : chars (t ++ "[[" ++ V ++ "]]")
      = chars t ++ ('[' :: '[' :: (chars V ++ [']', ']'])) := by
    rw [chars_append, chars_append, chars_append]
    show ((chars t ++ ['[', '[']) ++ chars V) ++ [']', ']'] = _
    simp [List.append_assoc]
  have e1 : _parse_column_spec (t ++ "[[" ++ V ++ "]]") cfg = (t, Option.none) := by
    unfold _parse_column_spec
    rw [hdata, matchDoubleBracket_wrap t V ht1 ht2 hv1 hv2]
    show (ofChars (chars t), cfg.lookup (ofChars (chars V))) = (t, Option.none)
    rw [ofChars_chars, ofChars_chars, hv3]
  have e2 : _parse_column_spec t cfg = (t, Option.none) := by
    unfold _parse_column_spec
    rw [(matchBrackets_plain t ht2).1, (matchBrackets_plain t ht2).2]
  refine ⟨e1, e2, ?_, ?_⟩
  · intro columns sh s
    unfold _generate_table tableRowCount
    rw [e1, e2]
  · intro value_spec sh s
    rw [e1]

/-- Concrete run of C6, discharging the hypotheses. -/
theorem c6_missing_config_var_witness :
    _parse_column_spec ("users" ++ "[[" ++ "NB" ++ "]]") [] = ("users", Option.none) ∧
    _parse_column_spec "users" [] = ("users", Option.none) ∧
    (∀ (columns : List (String × String)) (sh : SharedData) (s : RS),
      _generate_table ("users" ++ "[[" ++ "NB" ++ "]]") columns sh [] s
        = _generate_table "users" columns sh [] s) ∧
    (∀ (value_spec : String) (sh : SharedData) (s : RS),
      _generate_column value_spec
          (_parse_column_spec ("users" ++ "[[" ++ "NB" ++ "]]") []).2 [] sh s
        = _generate_column value_spec Option.none [] sh s) :=
  c6_missing_config_var "users" "NB" [] (by decide) (by decide) (by decide)
    (by decide) (by decide)

/-! ## Claim C8: phase ordering of shared generation and SharedRef resolution -/

theorem eo_genPure {α : Type u} (a : α) : EmitsOnlyResolve (genPure a) := by
  intro s r s' t h e he
  rw [genPure_run] at h
  simp only [Except.ok.injEq, Prod.mk.injEq] at h
  rw [← h.2.2] at he
  cases he

theorem eo_genErr {α : Type u} (er : PyErr) : EmitsOnlyResolve (genErr er : Gen α) := by
  intro s r s' t h
  cases h

theorem eo_nextNat : EmitsOnlyResolve nextNat := by
  intro s r s' t h e he
  unfold nextNat at h
  simp only [Except.ok.injEq, Prod.mk.injEq] at h
  rw [← h.2.2] at he
  cases he

theorem eo_genBind {α : Type u} {β : Type v} {g : Gen α} {f : α → Gen β}
    (hg : EmitsOnlyResolve g) (hf : ∀ a, EmitsOnlyResolve (f a)) :
    EmitsOnlyResolve (genBind g f) := by
  intro s r s' t h e he
  rw [genBind_ok] at h
  obtain ⟨a, s₁, t₁, t₂, ha, hb, rfl⟩ := h
  rcases List.mem_append.mp he with h1 | h2
  · exact hg s a s₁ t₁ ha e h1
  · exact hf a s₁ r s' t₂ hb e h2

theorem eo_choice {α : Type} (l : List α) : EmitsOnlyResolve (choice l) := by
  intro s r s' t h e he
  unfold choice at h
  split at h
  · cases h
  · simp only [Except.ok.injEq, Prod.mk.injEq] at h
    rw [← h.2.2] at he
    cases he

theorem eo_randint (lo hi : Nat) : EmitsOnlyResolve (randint lo hi) := by
  unfold randint
  split
  · exact eo_genErr _
  · exact eo_genBind eo_nextNat fun _ => eo_genPure _

theorem eo_sample {α : Type} (l : List α) (k : Nat) : EmitsOnlyResolve (sample l k) := by
  intro s r s' t h e he
  unfold sample at h
  split at h
  · cases h
  · simp only [Except.ok.injEq, Prod.mk.injEq] at h
    rw [← h.2.2] at he
    cases he

theorem eo_emit_resolve (n : String) :
    EmitsOnlyResolve (emit (.resolveSharedRef n)) := by
  intro s r s' t h e he
  unfold emit at h
  simp only [Except.ok.injEq, Prod.mk.injEq] at h
  rw [← h.2.2] at he
  rcases List.mem_singleton.mp he with rfl
  rfl

theorem eo_ite {α : Type u} {c : Prop} [Decidable c] {g h : Gen α}
    (hg : EmitsOnlyResolve g) (hh : EmitsOnlyResolve h) :
    EmitsOnlyResolve (if c then g else h) := by
  by_cases hc : c
  · rw [if_pos hc]; exact hg
  · rw [if_neg hc]; exact hh

theorem eo_dite {α : Type u} {c : Prop} [Decidable c] {g : c → Gen α}
    {h : ¬c → Gen α} (hg : ∀ hc, EmitsOnlyResolve (g hc))
    (hh : ∀ hc, EmitsOnlyResolve (h hc)) :
    EmitsOnlyResolve (dite c g h) := by
  by_cases hc : c
  · rw [dif_pos hc]; exact hg hc
  · rw [dif_neg hc]; exact hh hc

theorem eo_pyInt (cs : List Char) : EmitsOnlyResolve (pyInt cs) := by
  unfold pyInt
  exact eo_ite (eo_genPure _) (eo_genErr _)

theorem eo_chooseItems (its : List Char) : EmitsOnlyResolve (chooseItems its) := by
  unfold chooseItems
  apply eo_ite
  · exact eo_genBind (eo_pyInt _) fun _ => eo_genBind (eo_pyInt _) fun _ => eo_genPure _
  · exact eo_genPure _

theorem eo_choose (value_spec : String) :
    EmitsOnlyResolve (_generate_choose_value value_spec) := by
  unfold _generate_choose_value
  cases parseChoose (chars value_spec) with
  | none => exact eo_genPure _
  | some p =>
    obtain ⟨its, cnt⟩ := p
    apply eo_genBind (eo_chooseItems its)
    intro items
    cases cnt with
    | none => exact eo_genBind (eo_choice _) fun _ => eo_genPure _
    | some c =>
      apply eo_ite
      · exact eo_genBind (eo_randint _ _) fun _ =>
          eo_genBind (eo_sample _ _) fun _ => eo_genPure _
      · apply eo_ite
        · exact eo_genBind (eo_choice _) fun _ => eo_genPure _
        · exact eo_genBind (eo_pyInt _) fun _ =>
            eo_genBind (eo_sample _ _) fun _ => eo_genPure _

theorem eo_unique (value_spec : String) (row_idx : Nat) :
    EmitsOnlyResolve (_generate_unique_value value_spec row_idx) := by
  unfold _generate_unique_value
  cases parseUnique (chars value_spec) with
  | none => exact eo_genPure _
  | some ty =>
    apply eo_ite (eo_genPure _)
    exact eo_ite (eo_genPure _) (eo_genPure _)

theorem eo_genNames : ∀ n : Nat, EmitsOnlyResolve (genNames n)
  | 0 => eo_genPure _
  | n + 1 =>
    eo_genBind (eo_choice _) fun _ =>
      eo_genBind (eo_choice _) fun _ =>
        eo_genBind (eo_genNames n) fun _ => eo_genPure _

theorem eo_genRandChars : ∀ n : Nat, EmitsOnlyResolve (genRandChars n)
  | 0 => eo_genPure _
  | n + 1 =>
    eo_genBind (eo_choice _) fun _ =>
      eo_genBind (eo_genRandChars n) fun _ => eo_genPure _

theorem eo_primOrLiteral (value_spec : String) :
    EmitsOnlyResolve (genPrimOrLiteral value_spec) := by
  unfold genPrimOrLiteral _generate_random_string
  apply eo_ite (eo_genBind (eo_genRandChars 10) fun _ => eo_genPure _)
  apply eo_ite (eo_genBind (eo_randint _ _) fun _ => eo_genPure _)
  apply eo_ite (eo_genBind eo_nextNat fun _ => eo_genPure _)
  exact eo_ite (eo_genBind (eo_choice _) fun _ => eo_genPure _) (eo_genPure _)

theorem eo_poolValue (value_spec : String) :
    EmitsOnlyResolve (genPoolValue value_spec) := by
  unfold genPoolValue
  cases CONSTANT_MAP.lookup value_spec with
  | some pool =>
    show EmitsOnlyResolve
      (if (chars "S").isSuffixOf (chars value_spec) = true then
        genBind (randint 1 pool.length) fun count =>
          genBind (sample pool count) fun xs => genPure (.vlist (xs.map Prim.str))
      else genBind (choice pool) fun x => genPure (.str x))
    apply eo_ite
    · exact eo_genBind (eo_randint _ _) fun _ =>
        eo_genBind (eo_sample _ _) fun _ => eo_genPure _
    · exact eo_genBind (eo_choice _) fun _ => eo_genPure _
  | none =>
    cases poolSel (chars value_spec) with
    | none => exact eo_primOrLiteral value_spec
    | some p =>
      obtain ⟨cname, cnt⟩ := p
      show EmitsOnlyResolve
        (match CONSTANT_MAP.lookup (ofChars cname) with
         | some pool =>
           genBind (if cnt = chars "n" then randint 1 pool.length else pyInt cnt)
             fun count =>
               genBind (sample pool (min count pool.length)) fun xs =>
                 genPure (.vlist (xs.map Prim.str))
         | Option.none => genPrimOrLiteral value_spec)
      cases CONSTANT_MAP.lookup (ofChars cname) with
      | some pool =>
        show EmitsOnlyResolve
          (genBind (if cnt = chars "n" then randint 1 pool.length else pyInt cnt)
            fun count =>
              genBind (sample pool (min count pool.length)) fun xs =>
                genPure (.vlist (xs.map Prim.str)))
        apply eo_genBind
        · exact eo_ite (eo_randint _ _) (eo_pyInt _)
        · exact fun _ => eo_genBind (eo_sample _ _) fun _ => eo_genPure _
      | none =>
        show EmitsOnlyResolve (genPrimOrLiteral value_spec)
        exact eo_primOrLiteral value_spec

theorem eo_cell (value_spec : String) (row_idx : Nat) (cfg : Config)
    (sh : SharedData) :
    EmitsOnlyResolve (_generate_cell_value value_spec row_idx cfg sh) := by
  unfold _generate_cell_value
  apply eo_ite
  · apply eo_genBind (eo_emit_resolve _)
    intro _
    cases sh.lookup (sharedName value_spec) with
    | some col =>
      show EmitsOnlyResolve
        (if h : row_idx < col.length then genPure (col.get ⟨row_idx, h⟩)
         else choice col)
      exact eo_dite (fun _ => eo_genPure _) (fun _ => eo_choice _)
    | none => exact eo_genErr _
  apply eo_ite
  · exact eo_genBind (eo_choice _) fun _ => eo_genBind (eo_choice _) fun _ => eo_genPure _
  apply eo_ite
  · exact eo_genBind (eo_randint _ _) fun c =>
      eo_genBind (eo_genNames c) fun _ => eo_genPure _
  apply eo_ite (eo_unique value_spec row_idx)
  exact eo_ite (eo_choose value_spec) (eo_poolValue value_spec)

theorem eo_genCellsFrom (value_spec : String) (cfg : Config) (sh : SharedData) :
    ∀ (n idx : Nat), EmitsOnlyResolve (genCellsFrom value_spec cfg sh idx n)
  | 0, idx => eo_genPure _
  | n + 1, idx =>
    eo_genBind (eo_cell _ _ _ _) fun _ =>
      eo_genBind (eo_genCellsFrom value_spec cfg sh n (idx + 1)) fun _ => eo_genPure _

theorem eo_generate_column (value_spec : String) (row_count : Option Nat)
    (cfg : Config) (sh : SharedData) :
    EmitsOnlyResolve (_generate_column value_spec row_count cfg sh) := by
  unfold _generate_column
  apply eo_genBind
  · cases row_count with
    | some n => exact eo_genPure _
    | none => exact eo_randint _ _
  · exact fun rc => eo_genCellsFrom value_spec cfg sh rc 0

theorem eo_sharedGo (cfg : Config) :
    ∀ (shared_def : List (String × String)) (acc : SharedData),
      EmitsOnlyResolve (sharedGo cfg shared_def acc)
  | [], acc => eo_genPure _
  | (col_spec, value_spec) :: rest, acc =>
    eo_genBind (eo_generate_column _ _ _ _) fun vals =>
      eo_sharedGo cfg rest (dictInsert acc (_parse_column_spec col_spec cfg).1 vals)

theorem eo_generate_shared (shared_def : List (String × String)) (cfg : Config) :
    EmitsOnlyResolve (_generate_shared shared_def cfg) :=
  eo_sharedGo cfg shared_def []

/-- C8 (amended): in every successful document run, the trace splits as
`t₁ ++ [sharedPhaseEnd] ++ t₂` where `t₁` — everything emitted while the
shared section was being generated — contains only shared-reference
resolution events. In particular shared generation always completes before
any table generation begins (every `tableStart` lies in `t₂`), and every
table-phase SharedRef resolution happens after the full shared section
exists; but SharedRef resolutions MAY occur during shared generation itself
(a shared column spec may reference an earlier shared column — see the
counterexample), resolved against the prefix generated so far. -/
theorem c8_shared_before_tables (doc : Document) (s : RS) (r : GenResult)
    (s' : RS) (t : List Event)
    (h : create_table doc s = .ok (r, s', t)) :
    ∃ t₁ t₂, t = t₁ ++ Event.sharedPhaseEnd :: t₂ ∧
      ∀ e ∈ t₁, isResolve e = true := by
  unfold create_table at h
  rw [genBind_ok] at h
  obtain ⟨sh, s₁, t₁, trest, hshared, hrest, rfl⟩ := h
  rw [genBind_ok] at hrest
  obtain ⟨u, s₂, te, t₃, hemit, hrest2, rfl⟩ := hrest
  have hte : te = [Event.sharedPhaseEnd] := by
    unfold emit at hemit
    simp only [Except.ok.injEq, Prod.mk.injEq] at hemit
    exact hemit.2.2.symm
  refine ⟨t₁, t₃, ?_,
    fun e he => eo_generate_shared doc.shared doc.config s sh s₁ t₁ hshared e he⟩
  rw [hte]
  simp

/-- Concrete run of the amended C8, discharging the hypothesis: the document
has one shared column and one table whose column references it. -/
theorem c8_shared_before_tables_witness :
    ∃ t₁ t₂,
      ([Event.sharedPhaseEnd, Event.tableStart "t1", Event.resolveSharedRef "id"] :
          List Event)
        = t₁ ++ Event.sharedPhaseEnd :: t₂ ∧ ∀ e ∈ t₁, isResolve e = true :=
  c8_shared_before_tables
    ⟨[], [("id[1]", "UNIQUE[int]")], [("t1", [("x", "[[id]]")])]⟩
    constStream (.single [[("x", .int 1000)]]) constStream
    [Event.sharedPhaseEnd, Event.tableStart "t1", Event.resolveSharedRef "id"]
    (by rfl)

/-- Counterexample to C8 as stated: for a document whose second shared column
`b` references the first shared column `a`, the run trace contains two
`resolveSharedRef` events strictly before the `sharedPhaseEnd` marker —
SharedRef resolution IS performed while shared columns are still being
generated. -/
theorem c8_shared_before_tables_counterexample :
    traceOf (create_table
        ⟨[], [("a[1]", "UNIQUE[int]"), ("b[2]", "[[a]]")], [("t", [("x", "int")])]⟩)
        constStream
      = .ok [.resolveSharedRef "a", .resolveSharedRef "a", .sharedPhaseEnd,
          .tableStart "t"] ∧
    (([Event.resolveSharedRef "a", Event.resolveSharedRef "a", Event.sharedPhaseEnd,
        Event.tableStart "t"].takeWhile (fun e => e ≠ Event.sharedPhaseEnd)).any
      isResolve = true) := by
  constructor
  · decide
  · decide

/-! ## Claim C1: the two-table scenario -/

theorem firstNames_tokens : ∀ f ∈ FIRST_NAMES, chars f ≠ [] ∧ ' ' ∉ chars f := by
  decide

theorem lastNames_tokens : ∀ l ∈ LAST_NAMES, chars l ≠ [] ∧ ' ' ∉ chars l := by
  decide

/-- A `NAME` draw always produces a two-token full name, consuming two
stream elements. -/
theorem genFullName_run (s : RS) :
    ∃ v, genFullName s = .ok (v, s.tail.tail, []) ∧ twoTokenName v := by
  obtain ⟨f, hf, hfm⟩ := choice_run FIRST_NAMES (by decide) s
  obtain ⟨l, hl, hlm⟩ := choice_run LAST_NAMES (by decide) s.tail
  refine ⟨.str (f ++ " " ++ l), ?_, ?_⟩
  · unfold genFullName
    rw [genBind_ok]
    refine ⟨f, s.tail, [], [], hf, ?_, rfl⟩
    rw [genBind_ok]
    refine ⟨l, s.tail.tail, [], [], hl, rfl, rfl⟩
  · obtain ⟨hf1, hf2⟩ := firstNames_tokens f hfm
    obtain ⟨hl1, hl2⟩ := lastNames_tokens l hlm
    refine ⟨chars f, chars l, hf1, hl1, hf2, hl2, f ++ " " ++ l, rfl, ?_⟩
    rw [chars_append, chars_append]
    show chars f ++ [' '] ++ chars l = chars f ++ ' ' :: chars l
    simp

/-- Resolving the `id` column of the C1 table at an in-range row index. -/
theorem c1_cell_id (idx : Nat) (h : idx < 5) (s : RS) :
    _generate_cell_value "[[id]]" idx [] c1SharedData s
      = .ok (.int (1000 + idx), s, [.resolveSharedRef "id"]) := by
  rw [show ("[[id]]" : String) = "[[" ++ "id" ++ "]]" from rfl, cell_sharedRef]
  rw [genBind_ok]
  refine ⟨(), s, [.resolveSharedRef "id"], [], rfl, ?_, rfl⟩
  show (if hh : idx < 5 then
        genPure (([Value.int 1000, .int 1001, .int 1002, .int 1003,
          .int 1004] : List Value).get ⟨idx, hh⟩)
      else choice [Value.int 1000, .int 1001, .int 1002, .int 1003, .int 1004]) s
    = .ok (.int (1000 + idx), s, [])
  rw [dif_pos h]
  have hget : ([Value.int 1000, .int 1001, .int 1002, .int 1003, .int 1004] :
      List Value).get ⟨idx, h⟩ = .int (1000 + idx) := by
    interval_cases idx <;> rfl
  rw [hget]
  rfl

/-- One row of the C1 table: the shared id at the row index, then a fresh
two-token name. -/
theorem c1_row (idx : Nat) (h : idx < 5) (s : RS) :
    ∃ nm, genRowCells idx [] c1SharedData c1Columns s
      = .ok ([("id", .int (1000 + idx)), ("name", nm)], s.tail.tail,
          [.resolveSharedRef "id"])
      ∧ twoTokenName nm := by
  obtain ⟨nm, hnm, hgood⟩ := genFullName_run s
  refine ⟨nm, ?_, hgood⟩
  show (genBind (_generate_cell_value "[[id]]" idx [] c1SharedData) fun v =>
      genBind (genRowCells idx [] c1SharedData [("name", "NAME")]) fun r =>
        genPure (("id", v) :: r)) s
    = .ok ([("id", .int (1000 + idx)), ("name", nm)], s.tail.tail,
        [.resolveSharedRef "id"])
  rw [genBind_ok]
  refine ⟨.int (1000 + idx), s, [.resolveSharedRef "id"], [], c1_cell_id idx h s,
    ?_, rfl⟩
  show (genBind (genRowCells idx [] c1SharedData [("name", "NAME")]) fun r =>
      genPure (("id", Value.int (1000 + idx)) :: r)) s
    = .ok ([("id", .int (1000 + idx)), ("name", nm)], s.tail.tail, [])
  rw [genBind_ok]
  refine ⟨[("name", nm)], s.tail.tail, [], [], ?_, rfl, rfl⟩
  show (genBind genFullName fun v =>
      genBind (genRowCells idx [] c1SharedData []) fun r =>
        genPure (("name", v) :: r)) s
    = .ok ([("name", nm)], s.tail.tail, [])
  rw [genBind_ok]
  refine ⟨nm, s.tail.tail, [], [], hnm, rfl, rfl⟩

/-- The five rows of the C1 `users` table: ids 1000-1004 in order, and a
fresh two-token name per row. -/
theorem c1_rows (s : RS) :
    ∃ n0 n1 n2 n3 n4,
      genRowsFrom c1Columns [] c1SharedData 0 5 s
        = .ok ([[("id", .int 1000), ("name", n0)],
                [("id", .int 1001), ("name", n1)],
                [("id", .int 1002), ("name", n2)],
                [("id", .int 1003), ("name", n3)],
                [("id", .int 1004), ("name", n4)]],
               s.tail.tail.tail.tail.tail.tail.tail.tail.tail.tail,
               [.resolveSharedRef "id", .resolveSharedRef "id",
                .resolveSharedRef "id", .resolveSharedRef "id",
                .resolveSharedRef "id"])
        ∧ twoTokenName n0 ∧ twoTokenName n1 ∧ twoTokenName n2 ∧
          twoTokenName n3 ∧ twoTokenName n4 := by
  obtain ⟨n0, h0, g0⟩ := c1_row 0 (by omega) s
  obtain ⟨n1, h1, g1⟩ := c1_row 1 (by omega) s.tail.tail
  obtain ⟨n2, h2, g2⟩ := c1_row 2 (by omega) s.tail.tail.tail.tail
  obtain ⟨n3, h3, g3⟩ := c1_row 3 (by omega) s.tail.tail.tail.tail.tail.tail
  obtain ⟨n4, h4, g4⟩ :=
    c1_row 4 (by omega) s.tail.tail.tail.tail.tail.tail.tail.tail
  refine ⟨n0, n1, n2, n3, n4, ?_, g0, g1, g2, g3, g4⟩
  show (genBind (genRowCells 0 [] c1SharedData c1Columns) fun row =>
      genBind (genRowsFrom c1Columns [] c1SharedData 1 4) fun rest =>
        genPure (row :: rest)) s = _
  rw [genBind_ok]
  refine ⟨_, _, _, _, h0, ?_, rfl⟩
  show (genBind (genRowsFrom c1Columns [] c1SharedData 1 4) fun rest =>
      genPure ([("id", Value.int 1000), ("name", n0)] :: rest)) s.tail.tail = _
  rw [genBind_ok]
  refine ⟨_, _, [.resolveSharedRef "id", .resolveSharedRef "id",
    .resolveSharedRef "id", .resolveSharedRef "id"], [], ?_, rfl, rfl⟩
  show (genBind (genRowCells 1 [] c1SharedData c1Columns) fun row =>
      genBind (genRowsFrom c1Columns [] c1SharedData 2 3) fun rest =>
        genPure (row :: rest)) s.tail.tail = _
  rw [genBind_ok]
  refine ⟨_, _, _, _, h1, ?_, rfl⟩
  show (genBind (genRowsFrom c1Columns [] c1SharedData 2 3) fun rest =>
      genPure ([("id", Value.int 1001), ("name", n1)] :: rest))
        s.tail.tail.tail.tail = _
  rw [genBind_ok]
  refine ⟨_, _, [.resolveSharedRef "id", .resolveSharedRef "id",
    .resolveSharedRef "id"], [], ?_, rfl, rfl⟩
  show (genBind (genRowCells 2 [] c1SharedData c1Columns) fun row =>
      genBind (genRowsFrom c1Columns [] c1SharedData 3 2) fun rest =>
        genPure (row :: rest)) s.tail.tail.tail.tail = _
  rw [genBind_ok]
  refine ⟨_, _, _, _, h2, ?_, rfl⟩
  show (genBind (genRowsFrom c1Columns [] c1SharedData 3 2) fun rest =>
      genPure ([("id", Value.int 1002), ("name", n2)] :: rest))
        s.tail.tail.tail.tail.tail.tail = _
  rw [genBind_ok]
  refine ⟨_, _, [.resolveSharedRef "id", .resolveSharedRef "id"], [], ?_, rfl, rfl⟩
  show (genBind (genRowCells 3 [] c1SharedData c1Columns) fun row =>
      genBind (genRowsFrom c1Columns [] c1SharedData 4 1) fun rest =>
        genPure (row :: rest)) s.tail.tail.tail.tail.tail.tail = _
  rw [genBind_ok]
  refine ⟨_, _, _, _, h3, ?_, rfl⟩
  show (genBind (genRowsFrom c1Columns [] c1SharedData 4 1) fun rest =>
      genPure ([("id", Value.int 1003), ("name", n3)] :: rest))
        s.tail.tail.tail.tail.tail.tail.tail.tail = _
  rw [genBind_ok]
  refine ⟨_, _, [.resolveSharedRef "id"], [], ?_, rfl, rfl⟩
  show (genBind (genRowCells 4 [] c1SharedData c1Columns) fun row =>
      genBind (genRowsFrom c1Columns [] c1SharedData 5 0) fun rest =>
        genPure (row :: rest)) s.tail.tail.tail.tail.tail.tail.tail.tail = _
  rw [genBind_ok]
  refine ⟨_, _, _, _, h4, rfl, rfl⟩

/-- The C1 shared section is stream-independent: `id[5]` with `UNIQUE[int]`
always yields `[1000, 1001, 1002, 1003, 1004]`, consuming no randomness. -/
theorem c1_shared_run (s : RS) :
    _generate_shared [("id[5]", "UNIQUE[int]")] [] s = .ok (c1SharedData, s, []) := rfl

/-- C1: for the document
`{shared: {"id[5]": "UNIQUE[int]"}, tables: {"users": {"id": "[[id]]", "name": "NAME"}}}`,
every call to `create_table` — under every random stream — produces a `users`
table with exactly 5 rows, whose `id` column equals `[1000, 1001, 1002, 1003,
1004]` in row order, and whose every `name` value is a non-empty string of
exactly two space-separated tokens. -/
theorem c1_scenario (s : RS) :
    ∃ n0 n1 n2 n3 n4,
      evalG (create_table
          ⟨[], [("id[5]", "UNIQUE[int]")], [("users", c1Columns)]⟩) s
        = .ok (.single
            [[("id", .int 1000), ("name", n0)],
             [("id", .int 1001), ("name", n1)],
             [("id", .int 1002), ("name", n2)],
             [("id", .int 1003), ("name", n3)],
             [("id", .int 1004), ("name", n4)]])
      ∧ twoTokenName n0 ∧ twoTokenName n1 ∧ twoTokenName n2 ∧ twoTokenName n3 ∧
        twoTokenName n4 := by
  obtain ⟨n0, n1, n2, n3, n4, hrows, g0, g1, g2, g3, g4⟩ := c1_rows s
  refine ⟨n0, n1, n2, n3, n4, ?_, g0, g1, g2, g3, g4⟩
  rw [evalG_ok]
  refine ⟨s.tail.tail.tail.tail.tail.tail.tail.tail.tail.tail,
    [Event.sharedPhaseEnd, Event.tableStart "users", .resolveSharedRef "id",
     .resolveSharedRef "id", .resolveSharedRef "id", .resolveSharedRef "id",
     .resolveSharedRef "id"], ?_⟩
  unfold create_table
  rw [genBind_ok]
  refine ⟨c1SharedData, s, [],
    [Event.sharedPhaseEnd, Event.tableStart "users", .resolveSharedRef "id",
     .resolveSharedRef "id", .resolveSharedRef "id", .resolveSharedRef "id",
     .resolveSharedRef "id"], c1_shared_run s, ?_, rfl⟩
  show (genBind (emit Event.sharedPhaseEnd) _) s = _
  rw [genBind_ok]
  refine ⟨(), s, [Event.sharedPhaseEnd],
    [Event.tableStart "users", .resolveSharedRef "id", .resolveSharedRef "id",
     .resolveSharedRef "id", .resolveSharedRef "id", .resolveSharedRef "id"],
    rfl, ?_, rfl⟩
  show (genBind (tablesGo [] c1SharedData [("users", c1Columns)] []) _) s = _
  rw [genBind_ok]
  refine ⟨[("users",
      [[("id", .int 1000), ("name", n0)],
       [("id", .int 1001), ("name", n1)],
       [("id", .int 1002), ("name", n2)],
       [("id", .int 1003), ("name", n3)],
       [("id", .int 1004), ("name", n4)]])],
    s.tail.tail.tail.tail.tail.tail.tail.tail.tail.tail,
    [Event.tableStart "users", .resolveSharedRef "id", .resolveSharedRef "id",
     .resolveSharedRef "id", .resolveSharedRef "id", .resolveSharedRef "id"],
    [], ?_, rfl, rfl⟩
  show (genBind (emit (Event.tableStart "users")) _) s = _
  rw [genBind_ok]
  refine ⟨(), s, [Event.tableStart "users"],
    [.resolveSharedRef "id", .resolveSharedRef "id", .resolveSharedRef "id",
     .resolveSharedRef "id", .resolveSharedRef "id"], rfl, ?_, rfl⟩
  show (genBind (_generate_table "users" c1Columns c1SharedData []) _) s = _
  rw [genBind_ok]
  refine ⟨[[("id", .int 1000), ("name", n0)],
           [("id", .int 1001), ("name", n1)],
           [("id", .int 1002), ("name", n2)],
           [("id", .int 1003), ("name", n3)],
           [("id", .int 1004), ("name", n4)]],
    s.tail.tail.tail.tail.tail.tail.tail.tail.tail.tail,
    [.resolveSharedRef "id", .resolveSharedRef "id", .resolveSharedRef "id",
     .resolveSharedRef "id", .resolveSharedRef "id"], [], ?_, rfl, rfl⟩
  show (genBind (tableRowCount "users" c1Columns c1SharedData []) _) s = _
  rw [genBind_ok]
  refine ⟨5, s, [],
    [.resolveSharedRef "id", .resolveSharedRef "id", .resolveSharedRef "id",
     .resolveSharedRef "id", .resolveSharedRef "id"], rfl, ?_, rfl⟩
  exact hrows
